import Mathlib

/-!
Verification development for the Inbox metadata store and query subsystem
(`common_lib/inbox`): a shallow embedding of the Python source into Lean,
with theorems checking the behavioural claims of the specification.

Strings are modelled as `List Char` (Python strings are sequences of code
points).  Machine integers do not overflow in the modelled code paths
(byte counts and quotas fit easily in Python's arbitrary-precision ints),
so sizes are `Nat`.
-/

set_option autoImplicit false

namespace Inbox

abbrev Str := List Char

/-- Python's whitespace set: the characters for which `str.isspace()` holds
and which `\s` matches in `re` (str patterns).  Source of the set: CPython's
Unicode whitespace table. -/
def pyIsSpace (c : Char) : Bool :=
  (0x09 ≤ c.toNat && c.toNat ≤ 0x0d) || (0x1c ≤ c.toNat && c.toNat ≤ 0x1f) ||
  c.toNat == 0x20 || c.toNat == 0x85 || c.toNat == 0xa0 || c.toNat == 0x1680 ||
  (0x2000 ≤ c.toNat && c.toNat ≤ 0x200a) ||
  c.toNat == 0x2028 || c.toNat == 0x2029 || c.toNat == 0x202f ||
  c.toNat == 0x205f || c.toNat == 0x3000

/-- `s.lstrip()` on a list of characters. -/
def pyLStrip (l : Str) : Str := l.dropWhile pyIsSpace

/-- `s.rstrip()` on a list of characters. -/
def pyRStrip (l : Str) : Str := (l.reverse.dropWhile pyIsSpace).reverse

/-- Python `s.strip()`. -/
def pyStrip (l : Str) : Str := pyRStrip (pyLStrip l)

/-- ASCII lowering of one character.  Python's `str.lower()` is full
Unicode, but on the code paths modelled here (file extensions, kind
strings) only ASCII letters occur, and no non-ASCII character lowers to
an ASCII string that the classifier recognises, so the classification
verdicts agree with CPython on all inputs. -/
def pyLowerChar (c : Char) : Char :=
  if 0x41 ≤ c.toNat && c.toNat ≤ 0x5a then Char.ofNat (c.toNat + 32) else c

/-- Python `s.lower()` (ASCII part, see `pyLowerChar`). -/
def pyLower (l : Str) : Str := l.map pyLowerChar

/-- Split a list on every occurrence of the character `c`
(like Python's `str.split(c)`: empty chunks are kept). -/
def splitOnChar (c : Char) : Str → List Str
  | [] => [[]]
  | a :: as =>
    let r := splitOnChar c as
    if a = c then [] :: r
    else
      match r with
      | [] => [[a]]
      | h :: t => (a :: h) :: t

/-- `pathlib.PurePosixPath(f).name`: the final path component; empty
components and `.` components are dropped by pathlib's parsing. -/
def pathName (f : Str) : Str :=
  (((splitOnChar '/' f).filter (fun c => c ≠ [] && c ≠ ['.'])).getLast?).getD []

/-- `pathlib.PurePosixPath(f).suffix`: the extension of the final
component, i.e. the part from the last dot, provided that dot is neither
the first nor the last character of the name. -/
def pySuffix (f : Str) : Str :=
  let n := pathName f
  let r := n.reverse
  let ext := r.takeWhile (fun c => c ≠ '.')
  if ext.length = r.length then []          -- no dot in the name
  else if ext.length = 0 then []            -- name ends in a dot
  else if ext.length = r.length - 1 then [] -- the only dot is the leading one
  else '.' :: ext.reverse

/-- `pathlib.PurePosixPath(f).stem`: the final component minus its suffix. -/
def pyStem (f : Str) : Str :=
  let n := pathName f
  n.take (n.length - (pySuffix f).length)

/-- The extension dispatch of `detect_kind` (the if-chain of the source,
applied to the lowercased suffix). -/
def kindOfExt (ext : Str) : Str :=
  if ext = ".pdf".toList then "pdf".toList
  else if ext = ".docx".toList ∨ ext = ".doc".toList then "word".toList
  else if ext = ".xlsx".toList ∨ ext = ".xlsm".toList ∨ ext = ".csv".toList
          ∨ ext = ".tsv".toList then "excel".toList
  else if ext = ".xls".toList then "other".toList
  else if ext = ".pptx".toList ∨ ext = ".ppt".toList then "ppt".toList
  else if ext = ".txt".toList ∨ ext = ".md".toList ∨ ext = ".log".toList
          ∨ ext = ".json".toList ∨ ext = ".tex".toList then "text".toList
  else if ext = ".png".toList ∨ ext = ".jpg".toList ∨ ext = ".jpeg".toList
          ∨ ext = ".webp".toList ∨ ext = ".gif".toList ∨ ext = ".bmp".toList
          ∨ ext = ".tiff".toList ∨ ext = ".tif".toList then "image".toList
  else "other".toList

/-- `common_lib/inbox/inbox_common/utils.py`, `detect_kind`: classify a
filename into a kind from its (lowercased) extension. -/
def detect_kind (filename : Str) : Str :=
  kindOfExt (pyLower (pySuffix filename))

/-- The extensions listed in the classification table of the spec (§6). -/
def listedExts : List Str :=
  [".pdf".toList, ".docx".toList, ".doc".toList, ".xlsx".toList, ".xlsm".toList,
   ".csv".toList, ".tsv".toList, ".xls".toList, ".pptx".toList, ".ppt".toList,
   ".txt".toList, ".md".toList, ".log".toList, ".json".toList, ".tex".toList,
   ".png".toList, ".jpg".toList, ".jpeg".toList, ".webp".toList, ".gif".toList,
   ".bmp".toList, ".tiff".toList, ".tif".toList]

/-! ### safe_filename (`inbox_common/utils.py`) -/

/-- The characters `safe_filename` replaces: illegal filesystem characters. -/
def badFilenameChars : List Char := ['/', '\\', ':', '*', '?', '"', '<', '>', '|']

/-- Python `s.replace(ch, r)` for a single character `ch`. -/
def replaceAllChar (ch r : Char) (l : Str) : Str :=
  l.map (fun x => if x = ch then r else x)

/-- Python slicing `l[:k]` where `k` may be negative. -/
def pySliceTo (l : Str) (k : Int) : Str :=
  if 0 ≤ k then l.take k.toNat else l.take (l.length - (-k).toNat)

/-- Python `s.replace("_.", ".")`: non-overlapping left-to-right
replacement of the two-character pattern. -/
def replaceUnderscoreDot : Str → Str
  | '_' :: '.' :: rest => '.' :: replaceUnderscoreDot rest
  | c :: rest => c :: replaceUnderscoreDot rest
  | [] => []

/-- `common_lib/inbox/inbox_common/utils.py`, `safe_filename`: replace the
illegal characters by `_`, strip surrounding whitespace, and length-cap
at `max_len` keeping the extension. -/
def safe_filename (name : Str) (max_len : Nat := 120) : Str :=
  let out := pyStrip (badFilenameChars.foldl (fun acc ch => replaceAllChar ch '_' acc) name)
  if out.length > max_len then
    let sfx := pySuffix out
    let stem := pySliceTo (pyStem out) ((max_len : Int) - (sfx.length : Int) - 1)
    replaceUnderscoreDot (stem ++ '_' :: sfx.dropWhile (fun c => c = '.'))
  else out

/-! ### Term splitting (`inbox_query/query_builder.py`, `split_terms_and`) -/

/-- The delimiter class of the regex `[,\s/／]+`: comma, whitespace,
slash and full-width slash (U+FF0F). -/
def isTermDelim (c : Char) : Bool :=
  c == ',' || c == '/' || c.toNat == 0xff0f || pyIsSpace c

/-- Python `re.split` with a pattern matching one maximal run of
characters satisfying `p` per separator: chunks between separator runs,
with empty chunks at the borders when the string starts or ends with a
separator.  A separator character followed by another separator belongs
to the same run and contributes no boundary of its own. -/
def reSplitRuns (p : Char → Bool) : Str → List Str
  | [] => [[]]
  | c :: cs =>
    if p c then
      if (cs.head?.map p).getD false then reSplitRuns p cs
      else [] :: reSplitRuns p cs
    else
      match reSplitRuns p cs with
      | [] => [[c]]
      | h :: t => (c :: h) :: t

/-- `common_lib/inbox/inbox_query/query_builder.py`, `split_terms_and`:
split a free-text search string into AND-terms. -/
def split_terms_and (s : Str) : List Str :=
  if s = [] then []
  else
    let parts := reSplitRuns isTermDelim (pyStrip s)
    (parts.map pyStrip).filter (fun t => t ≠ [])

/-- Spec-side formalisation of the term-splitting rule as the claim
states it: the maximal delimiter-free runs of the string, in order
(consecutive delimiters collapsed, empty tokens dropped). -/
def splitTermsSpec (p : Char → Bool) : Str → List Str
  | [] => []
  | c :: cs =>
    if p c then splitTermsSpec p cs
    else (c :: cs.takeWhile (fun x => !(p x))) ::
         splitTermsSpec p (cs.dropWhile (fun x => !(p x)))
termination_by l => l.length
decreasing_by
  · exact Nat.lt_succ_self _
  · exact Nat.lt_succ_of_le (List.dropWhile_sublist _).length_le

/-! ### Dates (`query_builder.py`: JST day boundaries) -/

/-- A `datetime.date`. -/
structure PyDate where
  year : Nat
  month : Nat
  day : Nat
deriving DecidableEq

/-- Gregorian leap year. -/
def isLeapYear (y : Nat) : Bool := (y % 4 == 0 && y % 100 != 0) || y % 400 == 0

def daysInMonth (y m : Nat) : Nat :=
  if m = 2 then (if isLeapYear y then 29 else 28)
  else if m = 4 ∨ m = 6 ∨ m = 9 ∨ m = 11 then 30
  else 31

/-- `date + timedelta(days=1)` (no DST in JST, so midnight maps to the
next midnight). -/
def nextDay (d : PyDate) : PyDate :=
  if d.day < daysInMonth d.year d.month then ⟨d.year, d.month, d.day + 1⟩
  else if d.month < 12 then ⟨d.year, d.month + 1, 1⟩
  else ⟨d.year + 1, 1, 1⟩

def padNum (width n : Nat) : Str :=
  let s := (Nat.repr n).toList
  List.replicate (width - s.length) '0' ++ s

/-- `date_to_iso_start`: JST midnight of the day, ISO with seconds. -/
def date_to_iso_start (d : PyDate) : Str :=
  padNum 4 d.year ++ "-".toList ++ padNum 2 d.month ++ "-".toList ++
  padNum 2 d.day ++ "T00:00:00+09:00".toList

/-- `date_to_iso_end_exclusive`: JST midnight of the following day. -/
def date_to_iso_end_exclusive (d : PyDate) : Str :=
  date_to_iso_start (nextDay d)

/-! ### WHERE-fragment builder (`inbox_query/query_builder.py`) -/

/-- One condition of the WHERE fragment, in declaration order of
`build_where_and_params`.  Each constructor corresponds to one SQL
condition string pushed onto `conds` by the source. -/
inductive Cond where
  | falseCond                       -- "1=0"
  | kindIn (ks : List Str)          -- "it.kind IN (?,...,?)"
  | tagLike (t : Str)               -- "it.tags_json LIKE ?" with param %t%
  | nameLike (t : Str)              -- "it.original_name LIKE ?" with param %t%
  | addedGe (iso : Str)             -- "it.added_at >= ?"
  | addedLt (iso : Str)             -- "it.added_at < ?"
  | sizeGe (n : Int)                -- "it.size_bytes >= ?"
  | sizeLe (n : Int)                -- "it.size_bytes <= ?"
  | lvNull                          -- "lv.item_id IS NULL"
  | lvNotNull                       -- "lv.item_id IS NOT NULL"
  | lvAtGe (iso : Str)              -- "lv.last_viewed_at >= ?"
  | lvAtLt (iso : Str)              -- "lv.last_viewed_at < ?"
deriving DecidableEq

/-- A positional SQL parameter. -/
inductive SqlParam where
  | s (v : Str)
  | i (n : Int)
deriving DecidableEq

/-- The argument record of `build_where_and_params`. -/
structure FilterReq where
  kinds_checked : List Str
  tag_terms : List Str
  name_terms : List Str
  added_from : Option PyDate
  added_to : Option PyDate
  size_mode : Str
  size_min_bytes : Option Int
  size_max_bytes : Option Int
  lv_mode : Str
  lv_from : Option PyDate
  lv_to : Option PyDate
  lv_since_iso : Option Str

/-- The pattern `f"%{t}%"`. -/
def likePat (t : Str) : Str := '%' :: t ++ ['%']

/-- `build_where_and_params`, structured: the ordered condition list and
the positional parameter list (kinds, then tags, then names, then dates,
then size, then last-viewed). -/
def build_where_and_params (req : FilterReq) : List Cond × List SqlParam :=
  -- 種別
  let kindConds : List Cond :=
    if req.kinds_checked = [] then [Cond.falseCond] else [Cond.kindIn req.kinds_checked]
  let kindParams : List SqlParam :=
    if req.kinds_checked = [] then [] else req.kinds_checked.map SqlParam.s
  -- タグ（JSON文字列LIKE）
  let tagConds := req.tag_terms.map Cond.tagLike
  let tagParams := req.tag_terms.map (fun t => SqlParam.s (likePat t))
  -- ファイル名
  let nameConds := req.name_terms.map Cond.nameLike
  let nameParams := req.name_terms.map (fun t => SqlParam.s (likePat t))
  -- 格納日
  let fromConds := match req.added_from with
    | some d => [Cond.addedGe (date_to_iso_start d)] | none => []
  let fromParams := match req.added_from with
    | some d => [SqlParam.s (date_to_iso_start d)] | none => []
  let toConds := match req.added_to with
    | some d => [Cond.addedLt (date_to_iso_end_exclusive d)] | none => []
  let toParams := match req.added_to with
    | some d => [SqlParam.s (date_to_iso_end_exclusive d)] | none => []
  -- サイズ
  let sizePairs : List Cond × List SqlParam :=
    if req.size_mode = "以上".toList then
      match req.size_min_bytes with
      | some n => ([Cond.sizeGe n], [SqlParam.i n]) | none => ([], [])
    else if req.size_mode = "以下".toList then
      match req.size_max_bytes with
      | some n => ([Cond.sizeLe n], [SqlParam.i n]) | none => ([], [])
    else if req.size_mode = "範囲".toList then
      ((match req.size_min_bytes with | some n => [Cond.sizeGe n] | none => []) ++
       (match req.size_max_bytes with | some n => [Cond.sizeLe n] | none => []),
       (match req.size_min_bytes with | some n => [SqlParam.i n] | none => []) ++
       (match req.size_max_bytes with | some n => [SqlParam.i n] | none => []))
    else ([], [])
  -- last_viewed
  let lvPairs : List Cond × List SqlParam :=
    if req.lv_mode = "未閲覧のみ".toList then ([Cond.lvNull], [])
    else if req.lv_mode = "期間指定".toList then
      ([Cond.lvNotNull] ++
       (match req.lv_from with | some d => [Cond.lvAtGe (date_to_iso_start d)] | none => []) ++
       (match req.lv_to with | some d => [Cond.lvAtLt (date_to_iso_end_exclusive d)] | none => []),
       (match req.lv_from with | some d => [SqlParam.s (date_to_iso_start d)] | none => []) ++
       (match req.lv_to with | some d => [SqlParam.s (date_to_iso_end_exclusive d)] | none => []))
    else if req.lv_mode = "最近".toList then
      match req.lv_since_iso with
      | some since =>
        if since ≠ [] then ([Cond.lvNotNull, Cond.lvAtGe since], [SqlParam.s since])
        else ([], [])
      | none => ([], [])
    else ([], [])
  (kindConds ++ tagConds ++ nameConds ++ fromConds ++ toConds ++ sizePairs.1 ++ lvPairs.1,
   kindParams ++ tagParams ++ nameParams ++ fromParams ++ toParams ++ sizePairs.2 ++ lvPairs.2)

/-- The SQL text of one condition, exactly as the source builds it. -/
def renderCond : Cond → Str
  | Cond.falseCond => "1=0".toList
  | Cond.kindIn ks =>
      "it.kind IN (".toList ++ List.intercalate ",".toList (ks.map (fun _ => "?".toList)) ++ ")".toList
  | Cond.tagLike _ => "it.tags_json LIKE ?".toList
  | Cond.nameLike _ => "it.original_name LIKE ?".toList
  | Cond.addedGe _ => "it.added_at >= ?".toList
  | Cond.addedLt _ => "it.added_at < ?".toList
  | Cond.sizeGe _ => "it.size_bytes >= ?".toList
  | Cond.sizeLe _ => "it.size_bytes <= ?".toList
  | Cond.lvNull => "lv.item_id IS NULL".toList
  | Cond.lvNotNull => "lv.item_id IS NOT NULL".toList
  | Cond.lvAtGe _ => "lv.last_viewed_at >= ?".toList
  | Cond.lvAtLt _ => "lv.last_viewed_at < ?".toList

/-- The returned `where_sql` string: conditions joined by `" AND "`. -/
def whereSqlOf (conds : List Cond) : Str :=
  List.intercalate " AND ".toList (conds.map renderCond)

/-! ### Row model and WHERE semantics -/

/-- One `inbox_items` row (schema of `inbox_db/items_db.py`). -/
structure ItemRow where
  item_id : Str
  kind : Str
  stored_rel : Str
  original_name : Str
  added_at : Str
  size_bytes : Nat
  note : Str
  tags_json : Str
  thumb_rel : Str
  thumb_status : Str
  thumb_error : Str
  origin_user : Str
  origin_item_id : Str
  origin_type : Str
deriving DecidableEq

/-- One `last_viewed` row (schema of `inbox_db/last_viewed_db.py`). -/
structure LvRow where
  user_sub : Str
  item_id : Str
  kind : Str
  last_viewed_at : Str
deriving DecidableEq

/-- SQLite BINARY text comparison, strict: lexicographic on code points
(identical to byte order on the ASCII ISO strings compared here). -/
def strLt : Str → Str → Bool
  | [], [] => false
  | [], _ :: _ => true
  | _ :: _, [] => false
  | a :: as, b :: bs =>
    if a.toNat < b.toNat then true
    else if b.toNat < a.toNat then false
    else strLt as bs

/-- SQLite BINARY text comparison, non-strict. -/
def strLe (a b : Str) : Bool := !(strLt b a)

/-- `col LIKE '%t%'` for a wildcard-free term `t`: substring containment
(terms produced by the search boxes contain no `%`/`_` wildcards). -/
def likeContains (col t : Str) : Bool :=
  col.tails.any (fun suf => t.isPrefixOf suf)

/-- Truth value of one condition against a joined row: the item columns
and the (possibly absent) left-joined `last_viewed` row.  SQL comparisons
against columns of an absent joined row are comparisons with NULL and are
not satisfied. -/
def evalCond (c : Cond) (it : ItemRow) (lv : Option LvRow) : Bool :=
  match c with
  | Cond.falseCond => false
  | Cond.kindIn ks => ks.any (fun k => k == it.kind)
  | Cond.tagLike t => likeContains it.tags_json t
  | Cond.nameLike t => likeContains it.original_name t
  | Cond.addedGe iso => strLe iso it.added_at
  | Cond.addedLt iso => strLt it.added_at iso
  | Cond.sizeGe n => n ≤ (it.size_bytes : Int)
  | Cond.sizeLe n => (it.size_bytes : Int) ≤ n
  | Cond.lvNull => lv.isNone
  | Cond.lvNotNull => lv.isSome
  | Cond.lvAtGe iso => match lv with | some r => strLe iso r.last_viewed_at | none => false
  | Cond.lvAtLt iso => match lv with | some r => strLt r.last_viewed_at iso | none => false

/-- Truth of the whole fragment: the conjunction of its conditions. -/
def evalWhere (conds : List Cond) (it : ItemRow) (lv : Option LvRow) : Bool :=
  conds.all (fun c => evalCond c it lv)

/-- Does a condition reference the `lv.` alias?  Such a condition is a
name-resolution error in a query that does not join `last_viewed`. -/
def condUsesLv : Cond → Bool
  | Cond.lvNull => true
  | Cond.lvNotNull => true
  | Cond.lvAtGe _ => true
  | Cond.lvAtLt _ => true
  | _ => false

/-! ### Last-viewed store (`inbox_db/last_viewed_db.py`) -/

/-- The on-disk state of the `last_viewed.db` file. -/
inductive LvFileState where
  /-- the file does not exist yet -/
  | absent
  /-- a well-formed database with the canonical `last_viewed` schema -/
  | valid (rows : List LvRow)
  /-- not an SQLite database (truncated/garbage file) -/
  | corrupted
  /-- an SQLite database whose `last_viewed` table has an old column set
  (e.g. `viewed_at` instead of `last_viewed_at`): mid-migration state -/
  | midMigration
deriving DecidableEq

/-- `ensure_last_viewed_db`: create the canonical schema if the file or
table is missing, and raise on any database that deviates from it (no
old-schema compatibility, by explicit policy of the module). -/
def ensure_last_viewed_db : LvFileState → Except Str (List LvRow)
  | LvFileState.absent => Except.ok []
  | LvFileState.valid rows => Except.ok rows
  | LvFileState.corrupted => Except.error "file is not a database".toList
  | LvFileState.midMigration =>
      Except.error "last_viewed.db schema mismatch: missing columns".toList

/-- Does a row carry the primary key `(u, i)`? -/
def lvKeyMatch (u i : Str) (r : LvRow) : Bool :=
  r.user_sub == u && r.item_id == i

/-- `INSERT ... ON CONFLICT(user_sub, item_id) DO UPDATE`: replace the
`kind` and timestamp of the existing row for the key, or append a new
row. -/
def upsertRow (rows : List LvRow) (u i k ts : Str) : List LvRow :=
  if rows.any (lvKeyMatch u i) then
    rows.map (fun r =>
      if lvKeyMatch u i r then
        { r with kind := k, last_viewed_at := ts } else r)
  else rows ++ [⟨u, i, k, ts⟩]

/-- `viewed_at_iso is None or str(viewed_at_iso).strip() == ""`. -/
def isBlankTs : Option Str → Bool
  | none => true
  | some s => pyStrip s = []

/-- `upsert_last_viewed`: reject a blank timestamp, otherwise ensure the
schema and upsert on the `(user_sub, item_id)` key.  Returns the file
state after the call together with the outcome. -/
def upsert_last_viewed (lv : LvFileState) (user_sub item_id kind : Str)
    (viewed_at_iso : Option Str) : LvFileState × Except Str Unit :=
  if isBlankTs viewed_at_iso then
    (lv, Except.error "viewed_at_iso is empty. last_viewed_at must be a non-empty ISO string.".toList)
  else
    match ensure_last_viewed_db lv with
    | Except.error e => (lv, Except.error e)
    | Except.ok rows =>
      (LvFileState.valid (upsertRow rows user_sub item_id kind (viewed_at_iso.getD [])),
       Except.ok ())

/-! ### Query executor (`inbox_query/query_exec.py`) -/

/-- Insertion of one element into a list sorted by `le`. -/
def insSorted {α : Type} (le : α → α → Bool) (x : α) : List α → List α
  | [] => [x]
  | y :: ys => if le x y then x :: y :: ys else y :: insSorted le x ys

/-- Insertion sort by a boolean comparison. -/
def insSort {α : Type} (le : α → α → Bool) (l : List α) : List α :=
  l.foldr (insSorted le) []

/-- `ORDER BY it.added_at DESC`. -/
def rowLeNewest (a b : ItemRow × Option LvRow) : Bool :=
  strLe b.1.added_at a.1.added_at

/-- `ORDER BY (lv.last_viewed_at IS NULL) ASC, lv.last_viewed_at DESC,
it.added_at DESC`. -/
def rowLeViewed (a b : ItemRow × Option LvRow) : Bool :=
  match a.2, b.2 with
  | none, none => rowLeNewest a b
  | none, some _ => false
  | some _, none => true
  | some ra, some rb =>
    if ra.last_viewed_at = rb.last_viewed_at then rowLeNewest a b
    else strLe rb.last_viewed_at ra.last_viewed_at

/-- `ORDER BY it.original_name ASC, it.added_at DESC`. -/
def rowLeName (a b : ItemRow × Option LvRow) : Bool :=
  if a.1.original_name = b.1.original_name then rowLeNewest a b
  else strLe a.1.original_name b.1.original_name

def orderFor (sm : Str) : (ItemRow × Option LvRow) → (ItemRow × Option LvRow) → Bool :=
  if sm = "name".toList then rowLeName
  else if sm = "viewed".toList then rowLeViewed
  else rowLeNewest

/-- `query_items_page`: ensure the last-viewed schema, attach the
last-viewed database, compute the total with a query over `inbox_items`
alone, then the page with a LEFT JOIN on the last-viewed table, sorted
and limited.  Returns the page rows (item plus optional joined
last-viewed row) and the total.  A WHERE fragment that references the
`lv.` alias makes the count query fail to resolve the column name. -/
def query_items_page (sub : Str) (items : List ItemRow) (lv : LvFileState)
    (conds : List Cond) (limit offset : Nat) (sort_mode : Str) :
    Except Str (List (ItemRow × Option LvRow) × Nat) :=
  let base := if sort_mode = [] then "newest".toList else sort_mode
  let sm₀ := pyLower (pyStrip base)
  let sm := if sm₀ = "newest".toList ∨ sm₀ = "viewed".toList ∨ sm₀ = "name".toList
            then sm₀ else "newest".toList
  match ensure_last_viewed_db lv with
  | Except.error e => Except.error e
  | Except.ok lvRows =>
    -- ATTACH DATABASE succeeds: ensure has just created or validated the file.
    -- ① total: COUNT over inbox_items alone; an lv.-condition cannot resolve.
    if conds.any condUsesLv then Except.error "no such column: lv".toList
    else
      let total := items.countP (fun it => evalWhere conds it none)
      -- ② page: LEFT JOIN lvdb.last_viewed ON lv.user_sub = ? AND lv.item_id = it.item_id
      let joined := items.map (fun it =>
        (it, lvRows.find? (fun r => r.user_sub == sub && r.item_id == it.item_id)))
      let page :=
        ((insSort (orderFor sm) (joined.filter (fun p => evalWhere conds p.1 p.2))).drop
          offset).take limit
      Except.ok (page, total)

/-! ### Quota (`inbox_ops/quota.py`) -/

def QUOTA_BYTES_DEFAULT : Nat := 5 * 1024 * 1024 * 1024

/-- `quota_bytes_for_user`: uniform across all users. -/
def quota_bytes_for_user (_sub : Str) : Nat := QUOTA_BYTES_DEFAULT

/-- The files under a user's Inbox root: pairs of a path (relative to
the root) and the file's bytes. -/
abbrev Files := List (Str × List Nat)

/-- `folder_size_bytes`: recursive total size under the root. -/
def folder_size_bytes (files : Files) : Nat :=
  (files.map (fun f => f.2.length)).sum

def fileExists (files : Files) (p : Str) : Bool := files.any (fun f => f.1 == p)

def readFile (files : Files) (p : Str) : Option (List Nat) :=
  (files.find? (fun f => f.1 == p)).map (fun f => f.2)

def writeFile (files : Files) (p : Str) (d : List Nat) : Files := files ++ [(p, d)]

/-- `Path.unlink(missing_ok=True)`. -/
def unlinkFile (files : Files) (p : Str) : Files := files.filter (fun f => f.1 ≠ p)

/-! ### Items store mutations used by the ops layer (`inbox_db/items_db.py`) -/

/-- `update_thumb`: set the three thumbnail columns of one row (status
coalesced to `none` when empty, error truncated to 500 characters). -/
def update_thumb (rows : List ItemRow) (item_id thumb_rel status error : Str) :
    List ItemRow :=
  rows.map (fun r =>
    if r.item_id == item_id then
      { r with thumb_rel := thumb_rel,
               thumb_status := if status = [] then "none".toList else status,
               thumb_error := error.take 500 }
    else r)

/-! ### Common types (`inbox_common/types.py`) -/

inductive InboxIngestError where
  | notAvailable (msg : Str)
  | quotaExceeded (current incoming quota : Nat)
  | ingestFailed (msg : Str)
deriving DecidableEq

structure IngestRequest where
  user_sub : Str
  filename : Str
  data : List Nat
  tags_json : Str := "[]".toList
deriving DecidableEq

structure IngestResult where
  item_id : Str
  kind : Str
  stored_rel : Str
  size_bytes : Nat
  thumb_status : Str
deriving DecidableEq

/-- Per-user state: the catalog rows of `inbox_items.db` and the files
under the user's Inbox root. -/
structure UserBox where
  rows : List ItemRow
  files : Files
deriving DecidableEq

/-- Environment of one ops call: the facts the surrounding system
supplies (existence of the Inbox root, the freshly generated UUID, the
current JST timestamp) and the injected outcomes of the fallible steps
(catalog INSERT, thumbnail encoding). -/
structure OpsEnv where
  inboxRootExists : Bool
  itemId : Str
  nowIso : Str
  insertFails : Bool
  thumbGenOk : Bool
  thumbBytes : List Nat
deriving DecidableEq

/-- `now_iso_jst()[:10].replace("-", "/")`. -/
def dayDirOf (iso : Str) : Str :=
  (iso.take 10).map (fun c => if c = '-' then '/' else c)

/-- `paths.get(f"{kind}_files", paths["other_files"])`, as a path
relative to the user root (`ensure_user_dirs` has a `<kind>_files` entry
for exactly the seven canonical kinds). -/
def kindFilesDir (kind : Str) : Str :=
  if kind = "pdf".toList ∨ kind = "word".toList ∨ kind = "excel".toList ∨
     kind = "ppt".toList ∨ kind = "text".toList ∨ kind = "image".toList ∨
     kind = "other".toList
  then kind ++ "/files".toList else "other/files".toList

/-! ### Thumbnail service (`inbox_ops/thumb.py`) -/

/-- `ensure_thumb_for_item`: images only; every other kind is normalised
to status `none` (rewriting a stale record), and no outcome ever raises.
Returns the `(thumb_rel, thumb_status, thumb_error)` triple together
with the file set and catalog rows after the call. -/
def ensure_thumb_for_item (env : OpsEnv) (files : Files) (rows : List ItemRow)
    (item_id kind stored_rel : Str)
    (current_thumb_rel current_thumb_status : Option Str) :
    (Str × Str × Str) × Files × List ItemRow :=
  let k := pyStrip (pyLower kind)
  let curRel := current_thumb_rel.getD []
  let curStatus := current_thumb_status.getD []
  if k ≠ "image".toList then
    -- 方針：image 以外は作らない → none に正規化
    if curStatus ≠ "none".toList ∨ curRel ≠ [] then
      (([], "none".toList, []), files, update_thumb rows item_id [] "none".toList [])
    else (([], "none".toList, []), files, rows)
  else if curStatus = "ok".toList ∧ curRel ≠ [] ∧ fileExists files curRel then
    -- 既に ok + 実体ありなら再生成しない
    ((curRel, "ok".toList, []), files, rows)
  else if ¬ fileExists files stored_rel then
    (([], "failed".toList, "原本が存在しません（不整合）".toList), files,
     update_thumb rows item_id [] "failed".toList "原本が存在しません（不整合）".toList)
  else
    let rel := "image/thumbs/".toList ++ item_id ++ ".webp".toList
    if env.thumbGenOk then
      ((rel, "ok".toList, []), writeFile files rel env.thumbBytes,
       update_thumb rows item_id rel "ok".toList [])
    else
      (([], "failed".toList, "サムネ生成に失敗しました".toList), files,
       update_thumb rows item_id [] "failed".toList "サムネ生成に失敗しました".toList)

/-! ### Ingest service (`inbox_ops/ingest.py`) -/

/-- The destination of an ingest, relative to the user root:
`<kind>/files/<YYYY>/<MM>/<DD>/<item_id>__<sanitized_name>`. -/
def ingestOutPath (env : OpsEnv) (req : IngestRequest) : Str :=
  kindFilesDir (detect_kind req.filename) ++ '/' :: dayDirOf env.nowIso ++
    '/' :: (env.itemId ++ "__".toList ++ safe_filename req.filename)

/-- `ingest_to_inbox`: quota check, kind classification, file write,
catalog insert with best-effort rollback, thumbnail normalisation.
Returns the user's state after the call together with the outcome. -/
def ingest_to_inbox (env : OpsEnv) (box : UserBox) (req : IngestRequest) :
    UserBox × Except InboxIngestError IngestResult :=
  if ¬ env.inboxRootExists then
    (box, Except.error (InboxIngestError.notAvailable "Inbox root not found".toList))
  else
    -- 容量チェック（保存前に判定）
    let current := folder_size_bytes box.files
    let incoming := req.data.length
    let quota := quota_bytes_for_user req.user_sub
    if current + incoming > quota then
      (box, Except.error (InboxIngestError.quotaExceeded current incoming quota))
    else
      let kind := detect_kind req.filename
      let out_path := ingestOutPath env req
      -- 実体保存
      let files₁ := writeFile box.files out_path req.data
      if env.insertFails then
        -- DB登録失敗 → ロールバック：ファイル削除
        ({ box with files := unlinkFile files₁ out_path },
         Except.error (InboxIngestError.ingestFailed "DB insert failed".toList))
      else
        let newRow : ItemRow :=
          { item_id := env.itemId, kind := kind, stored_rel := out_path,
            original_name := req.filename, added_at := env.nowIso,
            size_bytes := incoming, note := [],
            tags_json := if req.tags_json = [] then "[]".toList else req.tags_json,
            thumb_rel := [], thumb_status := "none".toList, thumb_error := [],
            origin_user := [], origin_item_id := [], origin_type := [] }
        let rows₁ := box.rows ++ [newRow]
        -- サムネ（imageのみ。その他は none に正規化）
        let t := ensure_thumb_for_item env files₁ rows₁ env.itemId kind out_path none none
        ({ rows := t.2.2, files := t.2.1 },
         Except.ok { item_id := env.itemId, kind := kind, stored_rel := out_path,
                     size_bytes := incoming, thumb_status := t.1.2.1 })

/-! ### Send/copy service (`inbox_ops/send.py`) -/

/-- One line of `_meta/send_log.jsonl`. -/
structure SendLogRec where
  at_iso : Str
  from_user : Str
  to_user : Str
  origin_item_id : Str
  new_item_id : Str
  kind : Str
  origin_type : Str
  origin_name : Str
  tags_json : Str
deriving DecidableEq

/-- `send_item_copy`: copy one item from one user's Inbox into
another's, preserving tags and recording provenance.  Returns the two
users' states and the send log after the call, with the outcome. -/
def send_item_copy (env : OpsEnv) (from_user to_user item_id : Str)
    (fromBox toBox : UserBox) (log : List SendLogRec) :
    (UserBox × UserBox × List SendLogRec) × Except InboxIngestError Str :=
  if ¬ env.inboxRootExists then
    ((fromBox, toBox, log), Except.error (InboxIngestError.notAvailable "Inbox root not found".toList))
  else if from_user = [] ∨ to_user = [] ∨ from_user = to_user then
    ((fromBox, toBox, log), Except.error (InboxIngestError.ingestFailed "invalid from/to user".toList))
  else
    match fromBox.rows.find? (fun r => r.item_id == item_id) with
    | none => ((fromBox, toBox, log), Except.error (InboxIngestError.ingestFailed "item not found".toList))
    | some row =>
      let raw_kind := pyLower (if row.kind = [] then "other".toList else row.kind)
      let stored_rel := row.stored_rel
      if stored_rel = [] then
        ((fromBox, toBox, log), Except.error (InboxIngestError.ingestFailed "stored_rel missing".toList))
      else
        match readFile fromBox.files stored_rel with
        | none => ((fromBox, toBox, log), Except.error (InboxIngestError.ingestFailed "source file not found".toList))
        | some data =>
          -- 容量チェック（送付先）
          let incoming := data.length
          let current := folder_size_bytes toBox.files
          let quota := quota_bytes_for_user to_user
          if current + incoming > quota then
            ((fromBox, toBox, log), Except.error (InboxIngestError.quotaExceeded current incoming quota))
          else
            let orig_name := if row.original_name = [] then pathName stored_rel else row.original_name
            let safe_name := safe_filename orig_name
            let filename := env.itemId ++ "__".toList ++ safe_name
            let out_path := kindFilesDir raw_kind ++ '/' :: dayDirOf env.nowIso ++ '/' :: filename
            let toFiles₁ := writeFile toBox.files out_path data
            let tags_json_src := if row.tags_json = [] then "[]".toList else row.tags_json
            if env.insertFails then
              ((fromBox, { toBox with files := unlinkFile toFiles₁ out_path }, log),
               Except.error (InboxIngestError.ingestFailed "DB insert failed".toList))
            else
              let newRow : ItemRow :=
                { item_id := env.itemId, kind := raw_kind, stored_rel := out_path,
                  original_name := orig_name, added_at := env.nowIso,
                  size_bytes := incoming, note := [],
                  tags_json := tags_json_src, thumb_rel := [],
                  thumb_status := "none".toList, thumb_error := [],
                  origin_user := from_user, origin_item_id := item_id,
                  origin_type := "copy".toList }
              let toRows₁ := toBox.rows ++ [newRow]
              let rec_ : SendLogRec :=
                { at_iso := env.nowIso, from_user := from_user, to_user := to_user,
                  origin_item_id := item_id, new_item_id := env.itemId,
                  kind := raw_kind, origin_type := "copy".toList,
                  origin_name := row.original_name, tags_json := tags_json_src }
              if raw_kind = "image".toList then
                let t := ensure_thumb_for_item env toFiles₁ toRows₁ env.itemId raw_kind out_path none none
                let rows₂ := update_thumb t.2.2 env.itemId t.1.1 t.1.2.1 t.1.2.2
                ((fromBox, { rows := rows₂, files := t.2.1 }, log ++ [rec_]), Except.ok env.itemId)
              else
                ((fromBox, { rows := toRows₁, files := toFiles₁ }, log ++ [rec_]), Except.ok env.itemId)



/-! ### Concrete instances used by the witnesses -/

def c1Env : OpsEnv :=
  { inboxRootExists := true, itemId := "id-1".toList,
    nowIso := "2026-01-04T00:00:00+09:00".toList, insertFails := false,
    thumbGenOk := true, thumbBytes := [] }

def c1BoxBig : UserBox :=
  { rows := [], files := [("big.bin".toList, List.replicate (4*1024*1024*1024) 0)] }

def c1ReqOk : IngestRequest :=
  { user_sub := "alice".toList, filename := "a.pdf".toList,
    data := List.replicate (1024*1024*1024) 0 }

def c1ReqOver : IngestRequest :=
  { user_sub := "alice".toList, filename := "a.pdf".toList,
    data := List.replicate (1024*1024*1024 + 1) 0 }

def c3Env : OpsEnv :=
  { inboxRootExists := true, itemId := "id-3".toList,
    nowIso := "2026-01-04T00:00:00+09:00".toList, insertFails := true,
    thumbGenOk := true, thumbBytes := [] }

def c3EnvOk : OpsEnv := { c3Env with insertFails := false }

def c3Box : UserBox := { rows := [], files := [] }

def c3Req : IngestRequest :=
  { user_sub := "u".toList, filename := "a.pdf".toList, data := [1] }

def c3Res : IngestResult :=
  { item_id := "id-3".toList, kind := "pdf".toList,
    stored_rel := "pdf/files/2026/01/04/id-3__a.pdf".toList,
    size_bytes := 1, thumb_status := "none".toList }

def c9Env : OpsEnv :=
  { inboxRootExists := true, itemId := "id-9".toList,
    nowIso := "2026-02-01T09:00:00+09:00".toList, insertFails := false,
    thumbGenOk := true, thumbBytes := [7] }

def c9Req : IngestRequest :=
  { user_sub := "u".toList, filename := "doc.PDF".toList, data := [1, 2] }

def c9Res : IngestResult :=
  { item_id := "id-9".toList, kind := "pdf".toList,
    stored_rel := "pdf/files/2026/02/01/id-9__doc.PDF".toList,
    size_bytes := 2, thumb_status := "none".toList }

def c2Item : ItemRow :=
  { item_id := "x".toList, kind := "pdf".toList, stored_rel := "p".toList,
    original_name := "a.pdf".toList,
    added_at := "2026-01-01T00:00:00+09:00".toList, size_bytes := 1,
    note := [], tags_json := "[]".toList, thumb_rel := [],
    thumb_status := "none".toList, thumb_error := [],
    origin_user := [], origin_item_id := [], origin_type := [] }

def c8Env : OpsEnv :=
  { inboxRootExists := true, itemId := "id-8".toList,
    nowIso := "2026-03-05T10:00:00+09:00".toList, insertFails := false,
    thumbGenOk := true, thumbBytes := [] }

def c8Row : ItemRow :=
  { item_id := "X".toList, kind := "pdf".toList,
    stored_rel := "pdf/files/2026/01/01/X__a.pdf".toList,
    original_name := "a.pdf".toList,
    added_at := "2026-01-01T00:00:00+09:00".toList, size_bytes := 3,
    note := [], tags_json := "[\"t\"]".toList, thumb_rel := [],
    thumb_status := "none".toList, thumb_error := [],
    origin_user := [], origin_item_id := [], origin_type := [] }

def c8From : UserBox :=
  { rows := [c8Row], files := [(c8Row.stored_rel, [5, 6, 7])] }

def c8To : UserBox := { rows := [], files := [] }

/-- Spec-side description of the sanitizer on short names (C10): each
illegal character replaced by `_`, then surrounding whitespace
stripped. -/
def sanitizeSpec (name : Str) : Str :=
  pyStrip (name.map (fun c => if c ∈ badFilenameChars then '_' else c))

/-- The closed kind enumeration of the data model (§3): the values the
system itself ever writes into `inbox_items.kind`. -/
def canonicalKinds : List Str :=
  ["pdf".toList, "word".toList, "excel".toList, "ppt".toList, "text".toList,
   "image".toList, "other".toList]

/-- Agreement on every catalog column the thumbnail service never
touches. -/
def sameCatalogFields (x y : ItemRow) : Prop :=
  x.item_id = y.item_id ∧ x.kind = y.kind ∧ x.stored_rel = y.stored_rel ∧
  x.original_name = y.original_name ∧ x.added_at = y.added_at ∧
  x.size_bytes = y.size_bytes ∧ x.tags_json = y.tags_json ∧
  x.origin_user = y.origin_user ∧ x.origin_item_id = y.origin_item_id ∧
  x.origin_type = y.origin_type

/-! ## Theorems -/

/-! ### Helper lemmas about `kindOfExt` -/

theorem kindOfExt_unlisted (e : Str) (h : e ∉ listedExts) :
    kindOfExt e = "other".toList := by
  unfold kindOfExt
  split_ifs with h1 h2 h3 h4 h5 h6 h7
  · exact absurd (by subst h1; decide) h
  · exact absurd (by rcases h2 with rfl | rfl <;> decide) h
  · exact absurd (by rcases h3 with rfl | rfl | rfl | rfl <;> decide) h
  · rfl
  · exact absurd (by rcases h5 with rfl | rfl <;> decide) h
  · exact absurd (by rcases h6 with rfl | rfl | rfl | rfl | rfl <;> decide) h
  · exact absurd (by rcases h7 with rfl | rfl | rfl | rfl | rfl | rfl | rfl | rfl <;> decide) h
  · rfl

/-- C4, helper: `detect_kind` with a `.pdf` extension (any case). -/
theorem detect_kind_pdf (f : Str) (h : pyLower (pySuffix f) = ".pdf".toList) :
    detect_kind f = "pdf".toList := by
  unfold detect_kind
  rw [h]; decide

/-- C4: `detect_kind` is a total, deterministic function of the
filename's extension, case-insensitive on the extension; every listed
extension maps per the table of §6 (`.xls` to `other`), and any other or
missing extension maps to `other`. -/
theorem C4_detect_kind_table (f : Str) :
    (pyLower (pySuffix f) = ".pdf".toList → detect_kind f = "pdf".toList) ∧
    (pyLower (pySuffix f) = ".docx".toList ∨ pyLower (pySuffix f) = ".doc".toList →
      detect_kind f = "word".toList) ∧
    (pyLower (pySuffix f) = ".xlsx".toList ∨ pyLower (pySuffix f) = ".xlsm".toList ∨
     pyLower (pySuffix f) = ".csv".toList ∨ pyLower (pySuffix f) = ".tsv".toList →
      detect_kind f = "excel".toList) ∧
    (pyLower (pySuffix f) = ".xls".toList → detect_kind f = "other".toList) ∧
    (pyLower (pySuffix f) = ".pptx".toList ∨ pyLower (pySuffix f) = ".ppt".toList →
      detect_kind f = "ppt".toList) ∧
    (pyLower (pySuffix f) = ".txt".toList ∨ pyLower (pySuffix f) = ".md".toList ∨
     pyLower (pySuffix f) = ".log".toList ∨ pyLower (pySuffix f) = ".json".toList ∨
     pyLower (pySuffix f) = ".tex".toList → detect_kind f = "text".toList) ∧
    (pyLower (pySuffix f) = ".png".toList ∨ pyLower (pySuffix f) = ".jpg".toList ∨
     pyLower (pySuffix f) = ".jpeg".toList ∨ pyLower (pySuffix f) = ".webp".toList ∨
     pyLower (pySuffix f) = ".gif".toList ∨ pyLower (pySuffix f) = ".bmp".toList ∨
     pyLower (pySuffix f) = ".tiff".toList ∨ pyLower (pySuffix f) = ".tif".toList →
      detect_kind f = "image".toList) ∧
    (pyLower (pySuffix f) ∉ listedExts → detect_kind f = "other".toList) := by
  unfold detect_kind
  refine ⟨fun h => by rw [h]; decide, fun h => ?_, fun h => ?_, fun h => by rw [h]; decide,
          fun h => ?_, fun h => ?_, fun h => ?_, fun h => kindOfExt_unlisted _ h⟩
  · rcases h with h | h <;> rw [h] <;> decide
  · rcases h with h | h | h | h <;> rw [h] <;> decide
  · rcases h with h | h <;> rw [h] <;> decide
  · rcases h with h | h | h | h | h <;> rw [h] <;> decide
  · rcases h with h | h | h | h | h | h | h | h <;> rw [h] <;> decide

/-- Witness for C4 at concrete filenames (mixed case and an unlisted
extension). -/
theorem C4_witness :
    detect_kind "Report.PDF".toList = "pdf".toList ∧
    detect_kind "old.XLS".toList = "other".toList ∧
    detect_kind "Archive.zip".toList = "other".toList ∧
    detect_kind "noext".toList = "other".toList :=
  ⟨(C4_detect_kind_table _).1 (by decide),
   (C4_detect_kind_table _).2.2.2.1 (by decide),
   (C4_detect_kind_table _).2.2.2.2.2.2.2 (by decide),
   (C4_detect_kind_table _).2.2.2.2.2.2.2 (by decide)⟩

/-! ### C6: empty kind set matches nothing -/

theorem head_prefix_intercalate (sep a : Str) (l : List Str) :
    a <+: List.intercalate sep (a :: l) := by
  cases l with
  | nil => simp [List.intercalate]
  | cons b bs => simp [List.intercalate, List.intersperse_cons_cons]

/-- C6: with an empty `kinds_checked` the built WHERE fragment contains
the condition `1=0` and is satisfied by no row, whatever the other
filter inputs are; a non-empty `kinds_checked` instead contributes an
`it.kind IN (...)` condition over exactly those kinds. -/
theorem C6_kinds_empty_matches_nothing (req : FilterReq) :
    (req.kinds_checked = [] →
      Cond.falseCond ∈ (build_where_and_params req).1 ∧
      "1=0".toList <:+: whereSqlOf (build_where_and_params req).1 ∧
      ∀ (it : ItemRow) (lv : Option LvRow),
        evalWhere (build_where_and_params req).1 it lv = false) ∧
    (req.kinds_checked ≠ [] →
      Cond.kindIn req.kinds_checked ∈ (build_where_and_params req).1) := by
  constructor
  · intro h
    have hhead : ∃ rest, (build_where_and_params req).1 = Cond.falseCond :: rest := by
      simp only [build_where_and_params, h, if_pos]
      exact ⟨_, rfl⟩
    obtain ⟨rest, hr⟩ := hhead
    refine ⟨by rw [hr]; exact List.mem_cons_self _ _, ?_, ?_⟩
    · rw [hr]
      have : whereSqlOf (Cond.falseCond :: rest) =
          List.intercalate " AND ".toList (renderCond Cond.falseCond :: rest.map renderCond) := by
        simp [whereSqlOf]
      rw [this]
      exact (head_prefix_intercalate _ _ _).isInfix
    · intro it lv
      rw [hr]
      exact List.all_eq_false.mpr ⟨Cond.falseCond, List.mem_cons_self _ _, by simp [evalCond]⟩
  · intro h
    have : ∃ rest, (build_where_and_params req).1 = Cond.kindIn req.kinds_checked :: rest := by
      simp only [build_where_and_params, h, if_neg]
      exact ⟨_, rfl⟩
    obtain ⟨rest, hr⟩ := this
    rw [hr]
    exact List.mem_cons_self _ _

/-- Witness for C6: a request with no kinds checked but every other
filter wide open, and one with kinds checked. -/
theorem C6_witness :
    (Cond.falseCond ∈ (build_where_and_params
      { kinds_checked := [], tag_terms := ["a".toList], name_terms := ["b".toList],
        added_from := some ⟨2026, 1, 4⟩, added_to := none,
        size_mode := "以上".toList, size_min_bytes := some 10, size_max_bytes := none,
        lv_mode := "未閲覧のみ".toList, lv_from := none, lv_to := none,
        lv_since_iso := none }).1 ∧
     ∀ (it : ItemRow) (lv : Option LvRow),
       evalWhere (build_where_and_params
        { kinds_checked := [], tag_terms := ["a".toList], name_terms := ["b".toList],
          added_from := some ⟨2026, 1, 4⟩, added_to := none,
          size_mode := "以上".toList, size_min_bytes := some 10, size_max_bytes := none,
          lv_mode := "未閲覧のみ".toList, lv_from := none, lv_to := none,
          lv_since_iso := none }).1 it lv = false) ∧
    Cond.kindIn ["pdf".toList, "image".toList] ∈ (build_where_and_params
      { kinds_checked := ["pdf".toList, "image".toList], tag_terms := [],
        name_terms := [], added_from := none, added_to := none,
        size_mode := [], size_min_bytes := none, size_max_bytes := none,
        lv_mode := [], lv_from := none, lv_to := none, lv_since_iso := none }).1 :=
  ⟨⟨((C6_kinds_empty_matches_nothing _).1 rfl).1,
    ((C6_kinds_empty_matches_nothing _).1 rfl).2.2⟩,
   (C6_kinds_empty_matches_nothing _).2 (by decide)⟩

/-! ### C1: quota enforcement on ingest -/

theorem fileExists_writeFile_self (files : Files) (p : Str) (d : List Nat) :
    fileExists (writeFile files p d) p = true := by
  simp [fileExists, writeFile]

theorem ensure_thumb_files_eq (env : OpsEnv) (files : Files) (rows : List ItemRow)
    (item_id kind stored_rel : Str) (cRel cStat : Option Str) :
    (ensure_thumb_for_item env files rows item_id kind stored_rel cRel cStat).2.1 = files ∨
    (ensure_thumb_for_item env files rows item_id kind stored_rel cRel cStat).2.1 =
      writeFile files ("image/thumbs/".toList ++ item_id ++ ".webp".toList) env.thumbBytes := by
  simp only [ensure_thumb_for_item]
  split_ifs <;> simp

theorem fileExists_writeFile_of (files : Files) (p q : Str) (d : List Nat)
    (h : fileExists files p = true) : fileExists (writeFile files q d) p = true := by
  simp [fileExists, writeFile, List.any_append]
  simp [fileExists] at h
  exact Or.inl h

theorem fileExists_ensure_thumb (env : OpsEnv) (files : Files) (rows : List ItemRow)
    (item_id kind stored_rel : Str) (cRel cStat : Option Str) (p : Str)
    (h : fileExists files p = true) :
    fileExists
      (ensure_thumb_for_item env files rows item_id kind stored_rel cRel cStat).2.1
      p = true := by
  rcases ensure_thumb_files_eq env files rows item_id kind stored_rel cRel cStat with he | he
  · rw [he]; exact h
  · rw [he]; exact fileExists_writeFile_of _ _ _ _ h

theorem C1_quota_boundary (env : OpsEnv) (box : UserBox) (req : IngestRequest)
    (hroot : env.inboxRootExists = true) (hins : env.insertFails = false) :
    (folder_size_bytes box.files + req.data.length ≤ QUOTA_BYTES_DEFAULT →
      ∃ box' res, ingest_to_inbox env box req = (box', Except.ok res) ∧
        res.size_bytes = req.data.length ∧
        res.stored_rel = ingestOutPath env req ∧
        fileExists box'.files (ingestOutPath env req) = true) ∧
    (folder_size_bytes box.files + req.data.length > QUOTA_BYTES_DEFAULT →
      ingest_to_inbox env box req =
        (box, Except.error (InboxIngestError.quotaExceeded
          (folder_size_bytes box.files) req.data.length QUOTA_BYTES_DEFAULT))) := by
  constructor
  · intro hle
    simp only [ingest_to_inbox]
    split_ifs with h1 h2 h3
    · exact absurd h1 (by simpa [quota_bytes_for_user] using not_lt.mpr hle)
    · exact absurd h2 (by simp [hins])
    all_goals refine ⟨_, _, rfl, rfl, rfl, ?_⟩
    all_goals exact fileExists_ensure_thumb _ _ _ _ _ _ _ _ _ (fileExists_writeFile_self _ _ _)
  · intro hgt
    simp only [ingest_to_inbox]
    split_ifs with h1 h2 h3
    · rfl
    all_goals exact absurd (by simpa [quota_bytes_for_user] using hgt) h1

/-- Witness for C1 at the spec's boundary: with 4 GiB already stored,
ingesting exactly 1 GiB succeeds and 1 GiB + 1 byte fails with
`QuotaExceeded(4GiB, 1GiB+1, 5GiB)`. -/
theorem C1_witness :
    (∃ box' res, ingest_to_inbox c1Env c1BoxBig c1ReqOk = (box', Except.ok res)) ∧
    ingest_to_inbox c1Env c1BoxBig c1ReqOver =
      (c1BoxBig, Except.error (InboxIngestError.quotaExceeded
        (4*1024*1024*1024) (1024*1024*1024 + 1) (5*1024*1024*1024))) := by
  have hsize : folder_size_bytes c1BoxBig.files = 4*1024*1024*1024 := by
    rw [show c1BoxBig.files = [("big.bin".toList, List.replicate (4*1024*1024*1024) 0)] from rfl]
    unfold folder_size_bytes
    rw [List.map_cons, List.map_nil, List.length_replicate, List.sum_cons, List.sum_nil]
    omega
  have hlen1 : c1ReqOk.data.length = 1024*1024*1024 := by
    rw [show c1ReqOk.data = List.replicate (1024*1024*1024) 0 from rfl, List.length_replicate]
  have hlen2 : c1ReqOver.data.length = 1024*1024*1024 + 1 := by
    rw [show c1ReqOver.data = List.replicate (1024*1024*1024 + 1) 0 from rfl, List.length_replicate]
  have hquota : QUOTA_BYTES_DEFAULT = 5*1024*1024*1024 := by norm_num [QUOTA_BYTES_DEFAULT]
  constructor
  · obtain ⟨b, r, he, -⟩ := (C1_quota_boundary c1Env c1BoxBig c1ReqOk rfl rfl).1
      (by rw [hsize, hlen1]; norm_num [QUOTA_BYTES_DEFAULT])
    exact ⟨b, r, he⟩
  · have h := (C1_quota_boundary c1Env c1BoxBig c1ReqOver rfl rfl).2
      (by rw [hsize, hlen2]; norm_num [QUOTA_BYTES_DEFAULT])
    rw [hsize, hlen2, hquota] at h
    exact h


/-! ### C3: catalog-insert rollback -/

theorem fileExists_unlinkFile (files : Files) (p : Str) :
    fileExists (unlinkFile files p) p = false := by
  simp only [fileExists, unlinkFile]
  rw [Bool.eq_false_iff]
  intro hc
  rw [List.any_eq_true] at hc
  obtain ⟨x, hx, hxp⟩ := hc
  rw [List.mem_filter] at hx
  exact absurd (by simpa using hxp) (by simpa using hx.2)

theorem ensure_thumb_rows_eq (env : OpsEnv) (files : Files) (rows : List ItemRow)
    (item_id kind stored_rel : Str) (cRel cStat : Option Str) :
    (ensure_thumb_for_item env files rows item_id kind stored_rel cRel cStat).2.2 = rows ∨
    ∃ rel st er,
      (ensure_thumb_for_item env files rows item_id kind stored_rel cRel cStat).2.2 =
        update_thumb rows item_id rel st er := by
  simp only [ensure_thumb_for_item]
  split_ifs <;> first | exact Or.inl rfl | exact Or.inr ⟨_, _, _, rfl⟩

theorem exists_item_id_update_thumb (rows : List ItemRow) (id rel st er i : Str)
    (h : ∃ r ∈ rows, r.item_id = i) :
    ∃ r ∈ update_thumb rows id rel st er, r.item_id = i := by
  obtain ⟨r, hr, hid⟩ := h
  unfold update_thumb
  refine ⟨_, List.mem_map_of_mem _ hr, ?_⟩
  dsimp only
  split_ifs <;> simpa

theorem exists_item_id_ensure_thumb (env : OpsEnv) (files : Files) (rows : List ItemRow)
    (item_id kind stored_rel : Str) (cRel cStat : Option Str) (i : Str)
    (h : ∃ r ∈ rows, r.item_id = i) :
    ∃ r ∈ (ensure_thumb_for_item env files rows item_id kind stored_rel cRel cStat).2.2,
      r.item_id = i := by
  rcases ensure_thumb_rows_eq env files rows item_id kind stored_rel cRel cStat with he | ⟨a, b, c, he⟩
  · rw [he]; exact h
  · rw [he]; exact exists_item_id_update_thumb _ _ _ _ _ _ h

/-- C3: if the catalog insert fails after the file write, the file is
removed again and `IngestFailed` is raised, leaving no row for the item;
and every completed ingest leaves the file and a catalog row for the new
item together. -/
theorem C3_insert_rollback :
    (∀ (env : OpsEnv) (box : UserBox) (req : IngestRequest),
      env.inboxRootExists = true →
      folder_size_bytes box.files + req.data.length ≤ QUOTA_BYTES_DEFAULT →
      env.insertFails = true →
      ∃ box', ingest_to_inbox env box req =
          (box', Except.error (InboxIngestError.ingestFailed "DB insert failed".toList)) ∧
        fileExists box'.files (ingestOutPath env req) = false ∧
        box'.rows = box.rows) ∧
    (∀ (env : OpsEnv) (box : UserBox) (req : IngestRequest) (box' : UserBox)
       (res : IngestResult),
      ingest_to_inbox env box req = (box', Except.ok res) →
      fileExists box'.files res.stored_rel = true ∧
      ∃ r ∈ box'.rows, r.item_id = res.item_id) := by
  constructor
  · intro env box req hroot hle hins
    simp only [ingest_to_inbox]
    split_ifs with h1
    · exact absurd h1 (by simpa [quota_bytes_for_user] using not_lt.mpr hle)
    · exact ⟨_, rfl, fileExists_unlinkFile _ _, rfl⟩
  · intro env box req box' res h
    simp only [ingest_to_inbox] at h
    split_ifs at h with h1 h2 h3 h4 <;>
      (rw [Prod.mk.injEq] at h
       obtain ⟨hb, hr⟩ := h
       first
         | exact Except.noConfusion hr
         | (rw [Except.ok.injEq] at hr
            subst hb
            refine ⟨?_, ?_⟩
            · rw [← hr]
              exact fileExists_ensure_thumb _ _ _ _ _ _ _ _ _ (fileExists_writeFile_self _ _ _)
            · rw [← hr]
              exact exists_item_id_ensure_thumb _ _ _ _ _ _ _ _ _
                ⟨_, List.mem_append_right _ (List.mem_singleton_self _), rfl⟩))

/-- Witness for C3: a forced insert failure rolls the file back, and the
same ingest with a working insert leaves file and row together. -/
theorem C3_witness :
    (∃ box', ingest_to_inbox c3Env c3Box c3Req =
        (box', Except.error (InboxIngestError.ingestFailed "DB insert failed".toList)) ∧
      fileExists box'.files (ingestOutPath c3Env c3Req) = false ∧
      box'.rows = c3Box.rows) ∧
    (fileExists (ingest_to_inbox c3EnvOk c3Box c3Req).1.files c3Res.stored_rel = true ∧
     ∃ r ∈ (ingest_to_inbox c3EnvOk c3Box c3Req).1.rows, r.item_id = c3Res.item_id) := by
  constructor
  · exact C3_insert_rollback.1 c3Env c3Box c3Req rfl (by decide) rfl
  · have h : ingest_to_inbox c3EnvOk c3Box c3Req =
        ((ingest_to_inbox c3EnvOk c3Box c3Req).1, Except.ok c3Res) := by rfl
    exact C3_insert_rollback.2 c3EnvOk c3Box c3Req _ c3Res h


/-! ### C9: non-image kinds never get a thumbnail -/

/-- The thumbnail call as made by the services (no recorded prior
state): a non-image kind is normalised to `none`. -/
theorem ensure_thumb_non_image (env : OpsEnv) (files : Files) (rows : List ItemRow)
    (item_id kind stored_rel : Str)
    (hk : pyStrip (pyLower kind) ≠ "image".toList) :
    ensure_thumb_for_item env files rows item_id kind stored_rel none none =
      (([], "none".toList, []), files, update_thumb rows item_id [] "none".toList []) := by
  simp only [ensure_thumb_for_item]
  rw [if_pos hk, if_pos (Or.inl (by decide))]

theorem update_thumb_none_fields (rows : List ItemRow) (id : Str) (r : ItemRow)
    (hr : r ∈ update_thumb rows id [] "none".toList [])
    (hid : r.item_id = id) :
    r.thumb_status = "none".toList ∧ r.thumb_rel = [] := by
  unfold update_thumb at hr
  obtain ⟨r₀, hr₀, hfr⟩ := List.mem_map.mp hr
  by_cases hc : (r₀.item_id == id) = true
  · rw [if_pos hc] at hfr
    subst hfr
    refine ⟨?_, rfl⟩
    simp
  · rw [if_neg hc] at hfr
    subst hfr
    exact absurd (by simpa using hid) (by simpa using hc)

/-- C9: for a non-image kind `ensure_thumb_for_item` returns
`("", "none", "")` without generating anything, rewriting a stale
record back to that state; consequently ingesting a `.pdf` file always
records `thumb_status = "none"` and `thumb_rel = ""`. -/
theorem C9_thumb_non_image :
    (∀ (env : OpsEnv) (files : Files) (rows : List ItemRow)
       (item_id kind stored_rel : Str) (cRel cStat : Option Str),
      pyStrip (pyLower kind) ≠ "image".toList →
      (ensure_thumb_for_item env files rows item_id kind stored_rel cRel cStat).1 =
        ([], "none".toList, []) ∧
      (ensure_thumb_for_item env files rows item_id kind stored_rel cRel cStat).2.1 = files ∧
      ((cStat.getD [] ≠ "none".toList ∨ cRel.getD [] ≠ []) →
        (ensure_thumb_for_item env files rows item_id kind stored_rel cRel cStat).2.2 =
          update_thumb rows item_id [] "none".toList []) ∧
      (¬ (cStat.getD [] ≠ "none".toList ∨ cRel.getD [] ≠ []) →
        (ensure_thumb_for_item env files rows item_id kind stored_rel cRel cStat).2.2 =
          rows)) ∧
    (∀ (env : OpsEnv) (box : UserBox) (req : IngestRequest) (box' : UserBox)
       (res : IngestResult),
      pyLower (pySuffix req.filename) = ".pdf".toList →
      ingest_to_inbox env box req = (box', Except.ok res) →
      res.kind = "pdf".toList ∧ res.thumb_status = "none".toList ∧
      ∀ r ∈ box'.rows, r.item_id = res.item_id →
        r.thumb_status = "none".toList ∧ r.thumb_rel = []) := by
  constructor
  · intro env files rows item_id kind stored_rel cRel cStat hk
    simp only [ensure_thumb_for_item]
    rw [if_pos hk]
    by_cases hc : cStat.getD [] ≠ "none".toList ∨ cRel.getD [] ≠ []
    · rw [if_pos hc]
      exact ⟨rfl, rfl, fun _ => rfl, fun hcon => absurd hc hcon⟩
    · rw [if_neg hc]
      exact ⟨rfl, rfl, fun hcon => absurd hcon hc, fun _ => rfl⟩
  · intro env box req box' res hsfx h
    have hkind : detect_kind req.filename = "pdf".toList := by
      unfold detect_kind; rw [hsfx]; decide
    simp only [ingest_to_inbox, hkind] at h
    split_ifs at h with h1 h2 h3 h4 <;>
      (rw [Prod.mk.injEq] at h
       obtain ⟨hb, hr⟩ := h
       first
         | exact Except.noConfusion hr
         | (rw [Except.ok.injEq] at hr
            rw [ensure_thumb_non_image _ _ _ _ _ _ (by decide)] at hb hr
            subst hb
            refine ⟨by rw [← hr], by rw [← hr], ?_⟩
            intro r hrmem hrid
            exact update_thumb_none_fields _ _ _ hrmem (by rw [hrid, ← hr])))

/-- Witness for C9: a stale record on a pdf item is normalised, and a
concrete `.PDF` ingest records kind `pdf` with thumbnail status `none`. -/
theorem C9_witness :
    (ensure_thumb_for_item c9Env [] [] "i".toList "pdf".toList "s".toList
        (some "x".toList) (some "ok".toList)).1 = ([], "none".toList, []) ∧
    c9Res.kind = "pdf".toList ∧ c9Res.thumb_status = "none".toList := by
  have h : ingest_to_inbox c9Env { rows := [], files := [] } c9Req =
      ((ingest_to_inbox c9Env { rows := [], files := [] } c9Req).1, Except.ok c9Res) := by
    rfl
  refine ⟨(C9_thumb_non_image.1 c9Env [] [] _ _ _ _ _ (by decide)).1, ?_, ?_⟩
  · exact (C9_thumb_non_image.2 c9Env _ c9Req _ c9Res (by decide) h).1
  · exact (C9_thumb_non_image.2 c9Env _ c9Req _ c9Res (by decide) h).2.1


/-! ### C7: last-viewed upsert -/

theorem lvKeyMatch_mk (u i k ts : Str) : lvKeyMatch u i ⟨u, i, k, ts⟩ = true := by
  simp [lvKeyMatch]

theorem filter_map_untouched_eq_nil (q : LvRow → Bool) (f : LvRow → LvRow)
    (hf : ∀ r, q r = false → f r = r) (rest : List LvRow)
    (h0 : rest.countP q = 0) : (rest.map f).filter q = [] := by
  rw [List.filter_eq_nil_iff]
  intro a ha
  obtain ⟨x, hx, hfx⟩ := List.mem_map.mp ha
  have hqx : q x = false := by
    have := List.countP_eq_zero.mp h0 x hx
    simpa using this
  rw [← hfx, hf x hqx]
  simp [hqx]

/-- After an upsert the rows with the key are exactly the single upserted
row (assuming the primary-key invariant: at most one row per key). -/
theorem upsertRow_filter (rows : List LvRow) (u i k ts : Str)
    (h : rows.countP (lvKeyMatch u i) ≤ 1) :
    (upsertRow rows u i k ts).filter (lvKeyMatch u i) = [⟨u, i, k, ts⟩] := by
  unfold upsertRow
  by_cases hany : rows.any (lvKeyMatch u i) = true
  · rw [if_pos hany]
    induction rows with
    | nil => simp at hany
    | cons r rest ih =>
      rw [List.map_cons, List.filter_cons]
      by_cases hq : lvKeyMatch u i r = true
      · have hfr : (if lvKeyMatch u i r then
            ({ r with kind := k, last_viewed_at := ts } : LvRow) else r) =
            ⟨u, i, k, ts⟩ := by
          rw [if_pos hq]
          unfold lvKeyMatch at hq
          obtain ⟨h1, h2⟩ := (Bool.and_eq_true _ _).mp hq
          have e1 : r.user_sub = u := by simpa using h1
          have e2 : r.item_id = i := by simpa using h2
          simp [e1, e2]
        rw [hfr, lvKeyMatch_mk]
        have hc0 : rest.countP (lvKeyMatch u i) = 0 := by
          rw [List.countP_cons, hq] at h
          simp only [if_true, reduceIte] at h
          omega
        rw [filter_map_untouched_eq_nil _ _ (fun x hqx => by rw [if_neg (by simp [hqx])]) _ hc0]
        rfl
      · have hfr : (if lvKeyMatch u i r then
            ({ r with kind := k, last_viewed_at := ts } : LvRow) else r) = r := by
          rw [if_neg (by simp [hq])]
        rw [hfr]
        simp only [hq]
        have hany' : rest.any (lvKeyMatch u i) = true := by
          rw [List.any_cons] at hany
          simpa [hq] using hany
        have h' : rest.countP (lvKeyMatch u i) ≤ 1 := by
          rw [List.countP_cons] at h
          simp only [hq, if_false] at h
          omega
        exact ih h' hany'
  · rw [if_neg hany]
    rw [List.filter_append]
    have h0 : rows.filter (lvKeyMatch u i) = [] := by
      rw [List.filter_eq_nil_iff]
      intro a ha
      intro hqa
      exact hany (List.any_eq_true.mpr ⟨a, ha, hqa⟩)
    rw [h0]
    simp [lvKeyMatch_mk]

theorem upsertRow_countP (rows : List LvRow) (u i k ts : Str)
    (h : rows.countP (lvKeyMatch u i) ≤ 1) :
    (upsertRow rows u i k ts).countP (lvKeyMatch u i) = 1 := by
  rw [List.countP_eq_length_filter, upsertRow_filter rows u i k ts h]
  rfl

/-- C7: `upsert_last_viewed` rejects blank timestamps leaving the store
untouched; a non-blank upsert leaves exactly one row for the key, and a
second upsert on the same key overwrites kind and timestamp, still with
exactly one row. -/
theorem C7_upsert_last_viewed :
    (∀ (lv : LvFileState) (u i k : Str) (v : Option Str),
      isBlankTs v = true →
      (upsert_last_viewed lv u i k v).1 = lv ∧
      ∃ e, (upsert_last_viewed lv u i k v).2 = Except.error e) ∧
    (∀ (rows : List LvRow) (u i k ts : Str),
      isBlankTs (some ts) = false →
      rows.countP (lvKeyMatch u i) ≤ 1 →
      (upsert_last_viewed (LvFileState.valid rows) u i k (some ts)).2 = Except.ok () ∧
      (upsert_last_viewed (LvFileState.valid rows) u i k (some ts)).1 =
        LvFileState.valid (upsertRow rows u i k ts) ∧
      (upsertRow rows u i k ts).filter (lvKeyMatch u i) = [⟨u, i, k, ts⟩]) ∧
    (∀ (rows : List LvRow) (u i k₁ ts₁ k₂ ts₂ : Str),
      isBlankTs (some ts₁) = false → isBlankTs (some ts₂) = false →
      rows.countP (lvKeyMatch u i) ≤ 1 →
      ∃ rows₂,
        (upsert_last_viewed
          ((upsert_last_viewed (LvFileState.valid rows) u i k₁ (some ts₁)).1)
          u i k₂ (some ts₂)).1 = LvFileState.valid rows₂ ∧
        rows₂.filter (lvKeyMatch u i) = [⟨u, i, k₂, ts₂⟩] ∧
        rows₂.countP (lvKeyMatch u i) = 1) := by
  refine ⟨?_, ?_, ?_⟩
  · intro lv u i k v hb
    rw [upsert_last_viewed, if_pos hb]
    exact ⟨rfl, _, rfl⟩
  · intro rows u i k ts hb hpk
    rw [upsert_last_viewed, if_neg (by simp [hb])]
    exact ⟨rfl, rfl, upsertRow_filter rows u i k ts hpk⟩
  · intro rows u i k₁ ts₁ k₂ ts₂ hb₁ hb₂ hpk
    have h1 : (upsert_last_viewed (LvFileState.valid rows) u i k₁ (some ts₁)).1 =
        LvFileState.valid (upsertRow rows u i k₁ ts₁) := by
      rw [upsert_last_viewed, if_neg (by simp [hb₁])]
      rfl
    rw [h1]
    clear h1
    have hpk' : (upsertRow rows u i k₁ ts₁).countP (lvKeyMatch u i) ≤ 1 := by
      rw [upsertRow_countP rows u i k₁ ts₁ hpk]
    refine ⟨upsertRow (upsertRow rows u i k₁ ts₁) u i k₂ ts₂, ?_, ?_, ?_⟩
    · rw [upsert_last_viewed, if_neg (by simp [hb₂])]
      rfl
    · exact upsertRow_filter _ u i k₂ ts₂ hpk'
    · exact upsertRow_countP _ u i k₂ ts₂ hpk'

/-- Witness for C7: a whitespace-only timestamp is rejected with the
store unchanged; two concrete upserts on one key leave exactly one row
carrying the second call's kind and timestamp. -/
theorem C7_witness :
    ((upsert_last_viewed (LvFileState.valid []) "u".toList "i".toList "pdf".toList
        (some "  ".toList)).1 = LvFileState.valid [] ∧
     ∃ e, (upsert_last_viewed (LvFileState.valid []) "u".toList "i".toList "pdf".toList
        (some "  ".toList)).2 = Except.error e) ∧
    (upsertRow [] "u".toList "i".toList "pdf".toList "2026-01-01T00:00:00+09:00".toList).filter
        (lvKeyMatch "u".toList "i".toList) =
      [⟨"u".toList, "i".toList, "pdf".toList, "2026-01-01T00:00:00+09:00".toList⟩] ∧
    ∃ rows₂,
      (upsert_last_viewed
        ((upsert_last_viewed (LvFileState.valid []) "u".toList "i".toList "pdf".toList
          (some "2026-01-01T00:00:00+09:00".toList)).1)
        "u".toList "i".toList "image".toList
        (some "2026-02-02T00:00:00+09:00".toList)).1 = LvFileState.valid rows₂ ∧
      rows₂.filter (lvKeyMatch "u".toList "i".toList) =
        [⟨"u".toList, "i".toList, "image".toList, "2026-02-02T00:00:00+09:00".toList⟩] ∧
      rows₂.countP (lvKeyMatch "u".toList "i".toList) = 1 :=
  ⟨C7_upsert_last_viewed.1 _ _ _ _ _ (by decide),
   (C7_upsert_last_viewed.2.1 [] _ _ _ _ (by decide) (by decide)).2.2,
   C7_upsert_last_viewed.2.2 [] _ _ _ _ _ _ (by decide) (by decide) (by decide)⟩


/-! ### C2: total count vs. the last-viewed store -/

/-- C2 counterexample: with one catalog item and the empty filter, the
same call that returns total 1 on a healthy (or absent) last-viewed
store raises instead of returning a total when the last-viewed file is
corrupted or mid-migration: `ensure_last_viewed_db` is called before
the count and propagates its error. -/
theorem C2_counterexample :
    query_items_page "alice".toList [c2Item] LvFileState.corrupted [] 20 0
      "newest".toList = Except.error "file is not a database".toList ∧
    query_items_page "alice".toList [c2Item] LvFileState.midMigration [] 20 0
      "newest".toList =
      Except.error "last_viewed.db schema mismatch: missing columns".toList ∧
    query_items_page "alice".toList [c2Item] (LvFileState.valid []) [] 20 0
      "newest".toList = Except.ok ([(c2Item, none)], 1) :=
  ⟨rfl, rfl, rfl⟩

/-- C2 (amended): whenever `ensure_last_viewed_db` succeeds (the
last-viewed file is absent or schema-conforming) and the WHERE fragment
references only item columns, `query_items_page` succeeds and its total
is the items-only count of the fragment — an expression over the items
alone, hence independent of the last-viewed rows. -/
theorem C2_total_items_only (sub : Str) (items : List ItemRow) (lv : LvFileState)
    (conds : List Cond) (limit offset : Nat) (sm : Str) (lvRows : List LvRow)
    (hensure : ensure_last_viewed_db lv = Except.ok lvRows)
    (hconds : conds.any condUsesLv = false) :
    ∃ page, query_items_page sub items lv conds limit offset sm =
      Except.ok (page, items.countP (fun it => evalWhere conds it none)) := by
  simp only [query_items_page, hensure, hconds, Bool.false_eq_true, if_false, reduceIte]
  exact ⟨_, rfl⟩

/-- Witness for the amended C2: a concrete filtered query over an
absent last-viewed store returns total 1. -/
theorem C2_witness :
    ∃ page, query_items_page "alice".toList [c2Item] LvFileState.absent
      [Cond.kindIn ["pdf".toList]] 20 0 "newest".toList = Except.ok (page, 1) := by
  obtain ⟨page, h⟩ := C2_total_items_only "alice".toList [c2Item] LvFileState.absent
    [Cond.kindIn ["pdf".toList]] 20 0 "newest".toList [] rfl (by decide)
  rw [show ([c2Item].countP
      (fun it => evalWhere [Cond.kindIn ["pdf".toList]] it none)) = 1 from by decide] at h
  exact ⟨page, h⟩


/-! ### C8: send/copy provenance -/

theorem canonicalKind_lower (k : Str) (h : k ∈ canonicalKinds) :
    k ≠ [] ∧ pyLower k = k := by
  simp only [canonicalKinds, List.mem_cons, List.not_mem_nil, or_false] at h
  rcases h with rfl | rfl | rfl | rfl | rfl | rfl | rfl <;> exact ⟨by decide, by decide⟩

theorem sameCatalogFields_refl (x : ItemRow) : sameCatalogFields x x := by
  unfold sameCatalogFields
  exact ⟨rfl, rfl, rfl, rfl, rfl, rfl, rfl, rfl, rfl, rfl⟩

theorem sameCatalogFields_trans (x y z : ItemRow)
    (h1 : sameCatalogFields x y) (h2 : sameCatalogFields y z) :
    sameCatalogFields x z := by
  unfold sameCatalogFields at *
  exact ⟨h1.1.trans h2.1, h1.2.1.trans h2.2.1, h1.2.2.1.trans h2.2.2.1,
    h1.2.2.2.1.trans h2.2.2.2.1, h1.2.2.2.2.1.trans h2.2.2.2.2.1,
    h1.2.2.2.2.2.1.trans h2.2.2.2.2.2.1, h1.2.2.2.2.2.2.1.trans h2.2.2.2.2.2.2.1,
    h1.2.2.2.2.2.2.2.1.trans h2.2.2.2.2.2.2.2.1,
    h1.2.2.2.2.2.2.2.2.1.trans h2.2.2.2.2.2.2.2.2.1,
    h1.2.2.2.2.2.2.2.2.2.trans h2.2.2.2.2.2.2.2.2.2⟩

/-- `update_thumb` on a fresh-id row appended to untouched rows: the
prefix is unchanged and the new row keeps every catalog field. -/
theorem update_thumb_shape (a : List ItemRow) (r : ItemRow) (id rel st er : Str)
    (hfresh : ∀ x ∈ a, x.item_id ≠ id) :
    ∃ nr, update_thumb (a ++ [r]) id rel st er = a ++ [nr] ∧
      sameCatalogFields nr r := by
  unfold update_thumb
  rw [List.map_append]
  have ha : a.map (fun r' =>
      if r'.item_id == id then
        { r' with thumb_rel := rel,
                  thumb_status := if st = [] then "none".toList else st,
                  thumb_error := er.take 500 }
      else r') = a := by
    conv_rhs => rw [← List.map_id a]
    refine List.map_congr_left ?_
    intro x hx
    rw [if_neg (by simpa using hfresh x hx)]
    rfl
  refine ⟨_, by rw [ha]; rfl, ?_⟩
  dsimp only
  by_cases hc : (r.item_id == id) = true
  · rw [if_pos hc]
    exact ⟨rfl, rfl, rfl, rfl, rfl, rfl, rfl, rfl, rfl, rfl⟩
  · rw [if_neg hc]
    exact sameCatalogFields_refl r

/-- Rows after the thumbnail pass of `send_item_copy` on an image item:
the destination rows keep their prefix and the new row keeps every
catalog field. -/
theorem rows_shape_after_thumb (env : OpsEnv) (files : Files) (a : List ItemRow)
    (r : ItemRow) (id kind srel rel st er : Str)
    (hfresh : ∀ x ∈ a, x.item_id ≠ id) :
    ∃ nr, update_thumb
        ((ensure_thumb_for_item env files (a ++ [r]) id kind srel none none).2.2)
        id rel st er = a ++ [nr] ∧
      sameCatalogFields nr r := by
  rcases ensure_thumb_rows_eq env files (a ++ [r]) id kind srel none none with
    he | ⟨rel₀, st₀, er₀, he⟩
  · rw [he]
    exact update_thumb_shape a r id rel st er hfresh
  · rw [he]
    obtain ⟨nr₀, hs₀, hf₀⟩ := update_thumb_shape a r id rel₀ st₀ er₀ hfresh
    rw [hs₀]
    obtain ⟨nr₁, hs₁, hf₁⟩ := update_thumb_shape a nr₀ id rel st er hfresh
    rw [hs₁]
    exact ⟨nr₁, rfl, sameCatalogFields_trans nr₁ nr₀ r hf₁ hf₀⟩

/-- C8: a successful send from A to B appends exactly one new row to
B's catalog carrying the fresh item id, the source row's kind,
original_name and tags_json verbatim, and provenance
`origin_user = A, origin_item_id = X, origin_type = "copy"`, while A's
catalog and files are returned unchanged; blank or equal users are
rejected. -/
theorem C8_send_copy_provenance :
    (∀ (env : OpsEnv) (from_user to_user item_id : Str) (fromBox toBox : UserBox)
       (log : List SendLogRec) (row : ItemRow) (data : List Nat),
      env.inboxRootExists = true →
      fromBox.rows.find? (fun r => r.item_id == item_id) = some row →
      row.kind ∈ canonicalKinds →
      row.stored_rel ≠ [] →
      readFile fromBox.files row.stored_rel = some data →
      folder_size_bytes toBox.files + data.length ≤ QUOTA_BYTES_DEFAULT →
      env.insertFails = false →
      row.tags_json ≠ [] →
      row.original_name ≠ [] →
      from_user ≠ [] → to_user ≠ [] → from_user ≠ to_user →
      (∀ x ∈ toBox.rows, x.item_id ≠ env.itemId) →
      ∃ nr toBox' log',
        send_item_copy env from_user to_user item_id fromBox toBox log =
          ((fromBox, toBox', log'), Except.ok env.itemId) ∧
        toBox'.rows = toBox.rows ++ [nr] ∧
        nr.item_id = env.itemId ∧
        nr.kind = row.kind ∧
        nr.original_name = row.original_name ∧
        nr.tags_json = row.tags_json ∧
        nr.origin_user = from_user ∧
        nr.origin_item_id = item_id ∧
        nr.origin_type = "copy".toList) ∧
    (∀ (env : OpsEnv) (from_user to_user item_id : Str) (fromBox toBox : UserBox)
       (log : List SendLogRec),
      (from_user = [] ∨ to_user = [] ∨ from_user = to_user) →
      ∃ e, (send_item_copy env from_user to_user item_id fromBox toBox log).2 =
        Except.error e) := by
  constructor
  · intro env from_user to_user item_id fromBox toBox log row data hroot hfind hkind
      hsr hread hquota hins htags hname hf ht hne hfresh
    obtain ⟨hker, hlow⟩ := canonicalKind_lower row.kind hkind
    simp only [send_item_copy]
    rw [if_neg (show ¬¬(env.inboxRootExists = true) from by simp [hroot])]
    rw [if_neg (show ¬(from_user = [] ∨ to_user = [] ∨ from_user = to_user) from by
      push_neg
      exact ⟨hf, ht, hne⟩)]
    rw [hfind]
    simp only [if_neg hker, hlow]
    simp only [if_neg (show ¬(row.stored_rel = []) from hsr)]
    rw [hread]
    simp only [if_neg (show ¬(folder_size_bytes toBox.files + data.length >
        quota_bytes_for_user to_user) from by
      simpa [quota_bytes_for_user] using not_lt.mpr hquota)]
    simp only [if_neg (show ¬(row.original_name = []) from hname)]
    simp only [if_neg (show ¬(env.insertFails = true) from by simp [hins])]
    simp only [if_neg (show ¬(row.tags_json = []) from htags)]
    by_cases him : row.kind = "image".toList
    · rw [if_pos him]
      obtain ⟨nr, hs, hfields⟩ := rows_shape_after_thumb env
        (writeFile toBox.files
          (kindFilesDir row.kind ++ '/' :: dayDirOf env.nowIso ++
            '/' :: (env.itemId ++ "__".toList ++ safe_filename row.original_name))
          data)
        toBox.rows
        { item_id := env.itemId, kind := row.kind,
          stored_rel := kindFilesDir row.kind ++ '/' :: dayDirOf env.nowIso ++
            '/' :: (env.itemId ++ "__".toList ++ safe_filename row.original_name),
          original_name := row.original_name, added_at := env.nowIso,
          size_bytes := data.length, note := [], tags_json := row.tags_json,
          thumb_rel := [], thumb_status := "none".toList, thumb_error := [],
          origin_user := from_user, origin_item_id := item_id,
          origin_type := "copy".toList }
        env.itemId row.kind
        (kindFilesDir row.kind ++ '/' :: dayDirOf env.nowIso ++
          '/' :: (env.itemId ++ "__".toList ++ safe_filename row.original_name))
        _ _ _ hfresh
      rw [hs]
      refine ⟨nr, _, _, rfl, rfl, ?_, ?_, ?_, ?_, ?_, ?_, ?_⟩
      · exact hfields.1
      · exact hfields.2.1
      · exact hfields.2.2.2.1
      · exact hfields.2.2.2.2.2.2.1
      · exact hfields.2.2.2.2.2.2.2.1
      · exact hfields.2.2.2.2.2.2.2.2.1
      · exact hfields.2.2.2.2.2.2.2.2.2
    · rw [if_neg him]
      refine ⟨_, _, _, rfl, rfl, rfl, rfl, rfl, rfl, rfl, rfl, rfl⟩
  · intro env from_user to_user item_id fromBox toBox log hbad
    simp only [send_item_copy]
    by_cases hroot : env.inboxRootExists = true
    · rw [if_neg (show ¬¬(env.inboxRootExists = true) from by simp [hroot])]
      rw [if_pos hbad]
      exact ⟨_, rfl⟩
    · rw [if_pos (show ¬(env.inboxRootExists = true) from hroot)]
      exact ⟨_, rfl⟩

/-- Witness for C8: a concrete send from `alice` to `bob` creates the
provenance-carrying copy and leaves `alice`'s state untouched; a send
from `alice` to `alice` is rejected. -/
theorem C8_witness :
    (∃ nr toBox' log',
      send_item_copy c8Env "alice".toList "bob".toList "X".toList c8From c8To [] =
        ((c8From, toBox', log'), Except.ok c8Env.itemId) ∧
      toBox'.rows = c8To.rows ++ [nr] ∧
      nr.item_id = c8Env.itemId ∧ nr.kind = c8Row.kind ∧
      nr.original_name = c8Row.original_name ∧ nr.tags_json = c8Row.tags_json ∧
      nr.origin_user = "alice".toList ∧ nr.origin_item_id = "X".toList ∧
      nr.origin_type = "copy".toList) ∧
    (∃ e, (send_item_copy c8Env "alice".toList "alice".toList "X".toList
        c8From c8To []).2 = Except.error e) := by
  constructor
  · exact C8_send_copy_provenance.1 c8Env "alice".toList "bob".toList "X".toList
      c8From c8To [] c8Row [5, 6, 7] rfl rfl (by decide) (by decide) rfl
      (by decide) rfl (by decide) (by decide) (by decide) (by decide) (by decide)
      (fun x hx => absurd hx (List.not_mem_nil x))
  · exact C8_send_copy_provenance.2 c8Env "alice".toList "alice".toList "X".toList
      c8From c8To [] (Or.inr (Or.inr rfl))


/-! ### C10: sanitized filenames -/

theorem mem_pyLStrip {c : Char} {l : Str} (h : c ∈ pyLStrip l) : c ∈ l :=
  (List.dropWhile_sublist _).subset h

theorem mem_pyRStrip {c : Char} {l : Str} (h : c ∈ pyRStrip l) : c ∈ l := by
  unfold pyRStrip at h
  rw [List.mem_reverse] at h
  exact List.mem_reverse.mp ((List.dropWhile_sublist _).subset h)

theorem mem_pyStrip {c : Char} {l : Str} (h : c ∈ pyStrip l) : c ∈ l :=
  mem_pyLStrip (mem_pyRStrip h)

/-- The sequential single-character replaces of `safe_filename` are one
simultaneous replacement, because the replacement character `_` is not
itself replaced. -/
theorem foldl_replace_eq_map (cs : List Char) (hcs : '_' ∉ cs) (l : Str) :
    cs.foldl (fun acc ch => replaceAllChar ch '_' acc) l =
      l.map (fun c => if c ∈ cs then '_' else c) := by
  induction cs generalizing l with
  | nil =>
    simp only [List.foldl_nil, List.not_mem_nil, if_false]
    exact (List.map_id l).symm
  | cons ch rest ih =>
    rw [List.foldl_cons]
    rw [ih (fun hm => hcs (List.mem_cons_of_mem _ hm))]
    unfold replaceAllChar
    rw [List.map_map]
    refine List.map_congr_left ?_
    intro c _
    simp only [Function.comp]
    by_cases hc : c = ch
    · subst hc
      rw [if_pos rfl,
          if_neg (fun hm => hcs (List.mem_cons_of_mem _ hm)),
          if_pos (List.mem_cons_self _ _)]
    · rw [if_neg hc]
      by_cases hr : c ∈ rest
      · rw [if_pos hr, if_pos (List.mem_cons_of_mem _ hr)]
      · rw [if_neg hr, if_neg (fun hm => by
          rcases List.mem_cons.mp hm with h1 | h2
          · exact hc h1
          · exact hr h2)]

theorem pyStrip_length_le (l : Str) : (pyStrip l).length ≤ l.length := by
  unfold pyStrip pyRStrip pyLStrip
  calc ((l.dropWhile pyIsSpace).reverse.dropWhile pyIsSpace).reverse.length
      = ((l.dropWhile pyIsSpace).reverse.dropWhile pyIsSpace).length := by
        rw [List.length_reverse]
    _ ≤ (l.dropWhile pyIsSpace).reverse.length := (List.dropWhile_sublist _).length_le
    _ = (l.dropWhile pyIsSpace).length := by rw [List.length_reverse]
    _ ≤ l.length := (List.dropWhile_sublist _).length_le

theorem mem_splitOnChar (ch : Char) :
    ∀ (l : Str), ∀ part ∈ splitOnChar ch l, ∀ c ∈ part, c ∈ l := by
  intro l
  induction l with
  | nil =>
    intro part hp c hc
    simp only [splitOnChar] at hp
    rw [List.mem_singleton] at hp
    subst hp
    exact absurd hc (List.not_mem_nil c)
  | cons a as ih =>
    intro part hp c hc
    simp only [splitOnChar] at hp
    by_cases ha : a = ch
    · rw [if_pos ha] at hp
      rcases List.mem_cons.mp hp with rfl | hp'
      · exact absurd hc (List.not_mem_nil c)
      · exact List.mem_cons_of_mem _ (ih part hp' c hc)
    · rw [if_neg ha] at hp
      rcases hsp : splitOnChar ch as with _ | ⟨h₀, t₀⟩
      · rw [hsp] at hp
        rw [List.mem_singleton] at hp
        subst hp
        rw [List.mem_singleton] at hc
        subst hc
        exact List.mem_cons_self _ _
      · rw [hsp] at hp
        rcases List.mem_cons.mp hp with rfl | hp'
        · rcases List.mem_cons.mp hc with rfl | hc'
          · exact List.mem_cons_self _ _
          · exact List.mem_cons_of_mem _
              (ih h₀ (by rw [hsp]; exact List.mem_cons_self _ _) c hc')
        · exact List.mem_cons_of_mem _
            (ih part (by rw [hsp]; exact List.mem_cons_of_mem _ hp') c hc)

theorem mem_pathName {c : Char} {l : Str} (h : c ∈ pathName l) : c ∈ l := by
  unfold pathName at h
  rcases hg : ((splitOnChar '/' l).filter
      (fun p => p ≠ [] && p ≠ ['.'])).getLast? with _ | part
  · rw [hg] at h
    exact absurd h (List.not_mem_nil c)
  · rw [hg] at h
    have hpart : part ∈ (splitOnChar '/' l).filter (fun p => p ≠ [] && p ≠ ['.']) := by
      obtain ⟨hne, heq⟩ := List.mem_getLast?_eq_getLast (Option.mem_def.mpr hg)
      rw [heq]
      exact List.getLast_mem hne
    exact mem_splitOnChar '/' l part (List.mem_filter.mp hpart).1 c h

theorem mem_pySuffix {c : Char} {l : Str} (h : c ∈ pySuffix l) :
    c ∈ pathName l ∨ c = '.' := by
  simp only [pySuffix] at h
  split_ifs at h
  · exact absurd h (List.not_mem_nil c)
  · exact absurd h (List.not_mem_nil c)
  · exact absurd h (List.not_mem_nil c)
  · rcases List.mem_cons.mp h with rfl | hc
    · exact Or.inr rfl
    · rw [List.mem_reverse] at hc
      exact Or.inl (List.mem_reverse.mp ((List.takeWhile_sublist _).subset hc))

theorem mem_pyStem {c : Char} {l : Str} (h : c ∈ pyStem l) : c ∈ pathName l := by
  unfold pyStem at h
  exact (List.take_sublist _ _).subset h

theorem mem_pySliceTo {c : Char} {l : Str} {k : Int} (h : c ∈ pySliceTo l k) :
    c ∈ l := by
  unfold pySliceTo at h
  split_ifs at h <;> exact (List.take_sublist _ _).subset h

theorem mem_replaceUnderscoreDot :
    ∀ (l : Str), ∀ c ∈ replaceUnderscoreDot l, c ∈ l ∨ c = '.' := by
  intro l
  induction l using replaceUnderscoreDot.induct with
  | case1 rest ih =>
    intro c hc
    simp only [replaceUnderscoreDot] at hc
    rcases List.mem_cons.mp hc with rfl | hc'
    · exact Or.inr rfl
    · rcases ih c hc' with hm | hd
      · exact Or.inl (List.mem_cons_of_mem _ (List.mem_cons_of_mem _ hm))
      · exact Or.inr hd
  | case2 a rest hne ih =>
    intro c hc
    rw [replaceUnderscoreDot.eq_2 a rest hne] at hc
    rcases List.mem_cons.mp hc with rfl | hc'
    · exact Or.inl (List.mem_cons_self _ _)
    · rcases ih c hc' with hm | hd
      · exact Or.inl (List.mem_cons_of_mem _ hm)
      · exact Or.inr hd
  | case3 =>
    intro c hc
    exact absurd hc (List.not_mem_nil c)

/-- C10: `safe_filename` never returns any of the illegal characters
`/ \\ : * ? " < > |` (so `<item_id>__<name>` is one path segment), and
on inputs of at most 120 characters it is exactly the
replace-then-strip of the input. -/
theorem C10_safe_filename :
    (∀ name : Str, ∀ c ∈ safe_filename name, c ∉ badFilenameChars) ∧
    (∀ name : Str, name.length ≤ 120 → safe_filename name = sanitizeSpec name) := by
  have hmapgood : ∀ (name : Str),
      ∀ c ∈ pyStrip (name.map (fun x => if x ∈ badFilenameChars then '_' else x)),
        c ∉ badFilenameChars := by
    intro name c hc
    obtain ⟨x, hx, hfx⟩ := List.mem_map.mp (mem_pyStrip hc)
    by_cases hb : x ∈ badFilenameChars
    · rw [if_pos hb] at hfx
      rw [← hfx]
      decide
    · rw [if_neg hb] at hfx
      rw [← hfx]
      exact hb
  constructor
  · intro name c hc
    simp only [safe_filename] at hc
    rw [foldl_replace_eq_map badFilenameChars (by decide) name] at hc
    split_ifs at hc with hlen
    · rcases mem_replaceUnderscoreDot _ c hc with hm | rfl
      · rcases List.mem_append.mp hm with hstem | htail
        · exact hmapgood name c (mem_pathName (mem_pyStem (mem_pySliceTo hstem)))
        · rcases List.mem_cons.mp htail with rfl | hdrop
          · decide
          · rcases mem_pySuffix ((List.dropWhile_sublist _).subset hdrop) with hn | rfl
            · exact hmapgood name c (mem_pathName hn)
            · decide
      · decide
    · exact hmapgood name c hc
  · intro name h
    simp only [safe_filename, sanitizeSpec]
    rw [foldl_replace_eq_map badFilenameChars (by decide) name]
    have hle : (pyStrip (name.map
        (fun c => if c ∈ badFilenameChars then '_' else c))).length ≤ 120 :=
      le_trans (pyStrip_length_le _) (by rw [List.length_map]; exact h)
    rw [if_neg (not_lt.mpr hle)]

/-- Witness for C10: a concrete name with illegal characters and
whitespace sanitizes to a single, clean path segment. -/
theorem C10_witness :
    ('_' ∉ badFilenameChars) ∧
    safe_filename "  a:b*c.pdf  ".toList = "a_b_c.pdf".toList := by
  constructor
  · exact C10_safe_filename.1 "  a:b*c.pdf  ".toList '_' (by decide)
  · rw [C10_safe_filename.2 "  a:b*c.pdf  ".toList (by decide)]
    decide


/-! ### C5: term splitting -/

theorem isTermDelim_of_space {c : Char} (h : pyIsSpace c = true) :
    isTermDelim c = true := by
  simp [isTermDelim, h]

theorem dropWhile_eq_self_of_head (f : Char → Bool) (m : Str)
    (h : ∀ c ∈ m, f c = false) : m.dropWhile f = m := by
  cases m with
  | nil => rfl
  | cons a as =>
    rw [List.dropWhile_cons, if_neg (by simp [h a (List.mem_cons_self a as)])]

theorem pyStrip_eq_self (l : Str) (h : ∀ c ∈ l, pyIsSpace c = false) :
    pyStrip l = l := by
  unfold pyStrip pyLStrip pyRStrip
  rw [dropWhile_eq_self_of_head pyIsSpace l h]
  rw [dropWhile_eq_self_of_head pyIsSpace l.reverse
    (fun c hc => h c (List.mem_reverse.mp hc))]
  exact List.reverse_reverse l

theorem first_dropWhile_not (q : Char → Bool) :
    ∀ (l : Str) (d : Char) (ds : Str), l.dropWhile q = d :: ds → q d = false := by
  intro l
  induction l with
  | nil => intro d ds h; simp at h
  | cons a as ih =>
    intro d ds h
    rw [List.dropWhile_cons] at h
    by_cases ha : q a = true
    · rw [if_pos ha] at h
      exact ih d ds h
    · rw [if_neg ha] at h
      injection h with h1 _
      subst h1
      simpa using ha

theorem reSplitRuns_delim_run (p : Char → Bool) :
    ∀ (ds : Str) (d : Char), p d = true →
      reSplitRuns p (d :: ds) = [] :: reSplitRuns p (ds.dropWhile p) := by
  intro ds
  induction ds with
  | nil => intro d hd; simp [reSplitRuns, hd]
  | cons e es ih =>
    intro d hd
    by_cases he : p e = true
    · have h1 : reSplitRuns p (d :: e :: es) = reSplitRuns p (e :: es) := by
        simp [reSplitRuns, hd, he]
      rw [h1, ih e he, List.dropWhile_cons, if_pos he]
    · have h1 : reSplitRuns p (d :: e :: es) = [] :: reSplitRuns p (e :: es) := by
        simp [reSplitRuns, hd, he]
      rw [h1, List.dropWhile_cons, if_neg he]

theorem reSplitRuns_all_q (p : Char → Bool) :
    ∀ (l : Str), (∀ c ∈ l, p c = false) → reSplitRuns p l = [l] := by
  intro l
  induction l with
  | nil => intro _; rfl
  | cons a l' ih =>
    intro h
    have ha : p a = false := h a (List.mem_cons_self a l')
    have h' := ih (fun c hc => h c (List.mem_cons_of_mem _ hc))
    simp [reSplitRuns, ha, h']

theorem reSplitRuns_decomp (p : Char → Bool) :
    ∀ (l : Str) (d : Char) (ds : Str),
      l.dropWhile (fun c => !(p c)) = d :: ds →
      reSplitRuns p l =
        l.takeWhile (fun c => !(p c)) :: reSplitRuns p (ds.dropWhile p) := by
  intro l
  induction l with
  | nil => intro d ds h; simp at h
  | cons a l' ih =>
    intro d ds h
    by_cases ha : p a = true
    · rw [List.dropWhile_cons, if_neg (by simp [ha])] at h
      injection h with h1 h2
      subst h1
      subst h2
      rw [List.takeWhile_cons, if_neg (by simp [ha])]
      exact reSplitRuns_delim_run p l' a ha
    · rw [List.dropWhile_cons, if_pos (by simp [ha])] at h
      rw [List.takeWhile_cons, if_pos (by simp [ha])]
      simp [reSplitRuns, ha, ih d ds h]

theorem splitTermsSpec_dropWhile (p : Char → Bool) :
    ∀ (m : Str), splitTermsSpec p (m.dropWhile p) = splitTermsSpec p m := by
  intro m
  induction m with
  | nil => rfl
  | cons e es ih =>
    rw [List.dropWhile_cons]
    by_cases he : p e = true
    · rw [if_pos he, ih]
      simp [splitTermsSpec, he]
    · rw [if_neg he]

theorem splitTermsSpec_all_q (p : Char → Bool) :
    ∀ (l : Str), (∀ c ∈ l, p c = false) →
      splitTermsSpec p l = if l = [] then [] else [l] := by
  intro l
  cases l with
  | nil => intro _; simp [splitTermsSpec]
  | cons c cs =>
    intro h
    have hc : p c = false := h c (List.mem_cons_self c cs)
    have hall : ∀ x ∈ cs, (fun y => !(p y)) x = true := by
      intro x hx
      simp [h x (List.mem_cons_of_mem _ hx)]
    rw [if_neg (List.cons_ne_nil c cs)]
    simp only [splitTermsSpec, hc, Bool.false_eq_true, if_false]
    rw [List.takeWhile_eq_self_iff.mpr hall,
        List.dropWhile_eq_nil_iff.mpr hall]
    simp [splitTermsSpec]

theorem splitTermsSpec_decomp (p : Char → Bool) (l : Str) (d : Char) (ds : Str)
    (h : l.dropWhile (fun c => !(p c)) = d :: ds) :
    splitTermsSpec p l =
      (if l.takeWhile (fun c => !(p c)) = [] then []
       else [l.takeWhile (fun c => !(p c))]) ++
        splitTermsSpec p (ds.dropWhile p) := by
  have hpd : p d = true := by
    have := first_dropWhile_not (fun c => !(p c)) l d ds h
    simpa using this
  cases l with
  | nil => simp at h
  | cons c cs =>
    by_cases hc : p c = true
    · rw [List.dropWhile_cons, if_neg (by simp [hc])] at h
      injection h with h1 h2
      subst h1
      subst h2
      have htw : (c :: cs).takeWhile (fun x => !(p x)) = [] := by
        rw [List.takeWhile_cons, if_neg (by simp [hc])]
      rw [htw, if_pos (show ([] : Str) = [] from rfl), List.nil_append,
          splitTermsSpec_dropWhile]
      simp [splitTermsSpec, hc]
    · rw [List.dropWhile_cons, if_pos (by simp [hc])] at h
      have htw : (c :: cs).takeWhile (fun x => !(p x)) =
          c :: cs.takeWhile (fun x => !(p x)) := by
        rw [List.takeWhile_cons, if_pos (by simp [hc])]
      rw [htw, if_neg (List.cons_ne_nil _ _)]
      simp only [List.cons_append, List.nil_append]
      rw [show splitTermsSpec p (c :: cs) =
          (c :: cs.takeWhile (fun x => !(p x))) ::
            splitTermsSpec p (cs.dropWhile (fun x => !(p x))) from by
        simp [splitTermsSpec, hc]]
      rw [h]
      rw [show splitTermsSpec p (d :: ds) = splitTermsSpec p ds from by
        simp [splitTermsSpec, hpd]]
      rw [splitTermsSpec_dropWhile]

theorem reSplit_filter_spec (p : Char → Bool) :
    ∀ (n : Nat) (l : Str), l.length ≤ n →
      (reSplitRuns p l).filter (fun t => t ≠ []) = splitTermsSpec p l := by
  intro n
  induction n with
  | zero =>
    intro l hl
    have : l = [] := List.length_eq_zero.mp (Nat.le_zero.mp hl)
    subst this
    simp [reSplitRuns, splitTermsSpec]
  | succ n ih =>
    intro l hl
    rcases hd : l.dropWhile (fun c => !(p c)) with _ | ⟨d, ds⟩
    · have hall : ∀ c ∈ l, p c = false := by
        intro c hc
        have := List.dropWhile_eq_nil_iff.mp hd c hc
        simpa using this
      rw [reSplitRuns_all_q p l hall, splitTermsSpec_all_q p l hall]
      cases l with
      | nil => rfl
      | cons c cs => simp
    · rw [reSplitRuns_decomp p l d ds hd, List.filter_cons]
      have hlen : (ds.dropWhile p).length ≤ n := by
        have h1 : (ds.dropWhile p).length ≤ ds.length :=
          (List.dropWhile_sublist _).length_le
        have h2 : (l.dropWhile (fun c => !(p c))).length ≤ l.length :=
          (List.dropWhile_sublist _).length_le
        rw [hd] at h2
        simp only [List.length_cons] at h2
        omega
      rw [ih (ds.dropWhile p) hlen]
      rw [splitTermsSpec_decomp p l d ds hd]
      by_cases ht : l.takeWhile (fun c => !(p c)) = []
      · rw [if_pos ht]
        simp [ht]
      · rw [if_neg ht]
        simp [ht]

theorem reSplitRuns_chunks (p : Char → Bool) :
    ∀ (l : Str), ∀ part ∈ reSplitRuns p l, ∀ c ∈ part, p c = false := by
  intro l
  induction l with
  | nil =>
    intro part hp c hc
    simp only [reSplitRuns, List.mem_singleton] at hp
    subst hp
    exact absurd hc (List.not_mem_nil c)
  | cons a l' ih =>
    intro part hp c hc
    by_cases ha : p a = true
    · have hp' : part ∈ reSplitRuns p l' := by
        by_cases hh : ((l'.head?.map p).getD false) = true
        · simpa [reSplitRuns, ha, hh] using hp
        · have : part ∈ [] :: reSplitRuns p l' := by
            simpa [reSplitRuns, ha, hh] using hp
          rcases List.mem_cons.mp this with rfl | hmem
          · exact absurd hc (List.not_mem_nil c)
          · exact hmem
      exact ih part hp' c hc
    · rcases hr : reSplitRuns p l' with _ | ⟨h₀, t₀⟩
      · have : part = [a] := by
          simpa [reSplitRuns, ha, hr] using hp
        subst this
        rw [List.mem_singleton] at hc
        subst hc
        simpa using ha
      · have hp2 : part = a :: h₀ ∨ part ∈ t₀ := by
          have : part ∈ (a :: h₀) :: t₀ := by
            simpa [reSplitRuns, ha, hr] using hp
          exact List.mem_cons.mp this
        rcases hp2 with rfl | hmem
        · rcases List.mem_cons.mp hc with rfl | hc'
          · simpa using ha
          · exact ih h₀ (by rw [hr]; exact List.mem_cons_self _ _) c hc'
        · exact ih part (by rw [hr]; exact List.mem_cons_of_mem _ hmem) c hc

theorem map_pyStrip_chunks (l : Str) :
    (reSplitRuns isTermDelim l).map pyStrip = reSplitRuns isTermDelim l := by
  conv_rhs => rw [← List.map_id (reSplitRuns isTermDelim l)]
  refine List.map_congr_left ?_
  intro part hp
  refine pyStrip_eq_self part ?_
  intro c hc
  rcases hsp : pyIsSpace c with _ | _
  · rfl
  · have h1 := reSplitRuns_chunks isTermDelim l part hp c hc
    have h2 : isTermDelim c = true := isTermDelim_of_space hsp
    rw [h1] at h2
    exact absurd h2 (by simp)

theorem splitTermsSpec_lstrip (l : Str) :
    splitTermsSpec isTermDelim (l.dropWhile pyIsSpace) =
      splitTermsSpec isTermDelim l := by
  induction l with
  | nil => rfl
  | cons a l' ih =>
    rw [List.dropWhile_cons]
    rcases hsp : pyIsSpace a with _ | _
    · rw [if_neg (by simp [hsp])]
    · rw [if_pos (by simp [hsp]), ih]
      simp [splitTermsSpec, isTermDelim_of_space hsp]

theorem splitTermsSpec_all_delim :
    ∀ (t : Str), (∀ c ∈ t, isTermDelim c = true) →
      splitTermsSpec isTermDelim t = [] := by
  intro t
  induction t with
  | nil => intro _; simp [splitTermsSpec]
  | cons c cs ih =>
    intro h
    have hc := h c (List.mem_cons_self c cs)
    rw [show splitTermsSpec isTermDelim (c :: cs) = splitTermsSpec isTermDelim cs from by
      simp [splitTermsSpec, hc]]
    exact ih (fun x hx => h x (List.mem_cons_of_mem _ hx))

theorem takeWhile_q_all_delim (t : Str) (h : ∀ c ∈ t, isTermDelim c = true) :
    t.takeWhile (fun c => !(isTermDelim c)) = [] := by
  cases t with
  | nil => rfl
  | cons x xs =>
    rw [List.takeWhile_cons, if_neg (by simp [h x (List.mem_cons_self x xs)])]

theorem dropWhile_q_all_delim (t : Str) (h : ∀ c ∈ t, isTermDelim c = true) :
    t.dropWhile (fun c => !(isTermDelim c)) = t := by
  cases t with
  | nil => rfl
  | cons x xs =>
    rw [List.dropWhile_cons, if_neg (by simp [h x (List.mem_cons_self x xs)])]

theorem spec_append_delims :
    ∀ (n : Nat) (m t : Str), m.length ≤ n → (∀ c ∈ t, isTermDelim c = true) →
      splitTermsSpec isTermDelim (m ++ t) = splitTermsSpec isTermDelim m := by
  intro n
  induction n with
  | zero =>
    intro m t hm ht
    have : m = [] := List.length_eq_zero.mp (Nat.le_zero.mp hm)
    subst this
    rw [List.nil_append, splitTermsSpec_all_delim t ht]
    simp [splitTermsSpec]
  | succ n ih =>
    intro m t hm ht
    cases m with
    | nil =>
      rw [List.nil_append, splitTermsSpec_all_delim t ht]
      simp [splitTermsSpec]
    | cons c ms =>
      by_cases hc : isTermDelim c = true
      · rw [List.cons_append]
        rw [show splitTermsSpec isTermDelim (c :: (ms ++ t)) =
            splitTermsSpec isTermDelim (ms ++ t) from by simp [splitTermsSpec, hc]]
        rw [show splitTermsSpec isTermDelim (c :: ms) =
            splitTermsSpec isTermDelim ms from by simp [splitTermsSpec, hc]]
        exact ih ms t (by simpa using Nat.le_of_succ_le_succ hm) ht
      · rw [List.cons_append]
        rw [show splitTermsSpec isTermDelim (c :: (ms ++ t)) =
            (c :: (ms ++ t).takeWhile (fun x => !(isTermDelim x))) ::
              splitTermsSpec isTermDelim
                ((ms ++ t).dropWhile (fun x => !(isTermDelim x))) from by
          simp [splitTermsSpec, hc]]
        rw [show splitTermsSpec isTermDelim (c :: ms) =
            (c :: ms.takeWhile (fun x => !(isTermDelim x))) ::
              splitTermsSpec isTermDelim
                (ms.dropWhile (fun x => !(isTermDelim x))) from by
          simp [splitTermsSpec, hc]]
        rcases hdq : ms.dropWhile (fun x => !(isTermDelim x)) with _ | ⟨d, ds⟩
        · have hmsq : ∀ x ∈ ms, (fun y => !(isTermDelim y)) x = true :=
            List.dropWhile_eq_nil_iff.mp hdq
          have htt : (ms ++ t).takeWhile (fun x => !(isTermDelim x)) = ms := by
            rw [List.takeWhile_append,
                if_pos (by rw [List.takeWhile_eq_self_iff.mpr hmsq]),
                takeWhile_q_all_delim t ht, List.append_nil]
          have hdd : (ms ++ t).dropWhile (fun x => !(isTermDelim x)) = t := by
            rw [List.dropWhile_append, hdq]
            simp only [List.isEmpty_nil, if_true]
            exact dropWhile_q_all_delim t ht
          rw [htt, hdd]
          rw [List.takeWhile_eq_self_iff.mpr hmsq]
          rw [splitTermsSpec_all_delim t ht]
          rw [show splitTermsSpec isTermDelim ([] : Str) = [] from by
            simp [splitTermsSpec]]
        · have hpd : isTermDelim d = true := by
            have := first_dropWhile_not (fun x => !(isTermDelim x)) ms d ds hdq
            simpa using this
          have htw : (ms.takeWhile (fun x => !(isTermDelim x))).length ≠ ms.length := by
            have hsum : (ms.takeWhile (fun x => !(isTermDelim x))).length +
                (ms.dropWhile (fun x => !(isTermDelim x))).length = ms.length := by
              rw [← List.length_append, List.takeWhile_append_dropWhile]
            rw [hdq] at hsum
            simp only [List.length_cons] at hsum
            omega
          have htt : (ms ++ t).takeWhile (fun x => !(isTermDelim x)) =
              ms.takeWhile (fun x => !(isTermDelim x)) := by
            rw [List.takeWhile_append, if_neg htw]
          have hdd : (ms ++ t).dropWhile (fun x => !(isTermDelim x)) =
              d :: (ds ++ t) := by
            rw [List.dropWhile_append, hdq]
            simp
          rw [htt, hdd]
          rw [show splitTermsSpec isTermDelim (d :: (ds ++ t)) =
              splitTermsSpec isTermDelim (ds ++ t) from by
            simp [splitTermsSpec, hpd]]
          rw [show splitTermsSpec isTermDelim (d :: ds) =
              splitTermsSpec isTermDelim ds from by
            simp [splitTermsSpec, hpd]]
          have hds : ds.length ≤ n := by
            have h1 : (ms.dropWhile (fun x => !(isTermDelim x))).length ≤ ms.length :=
              (List.dropWhile_sublist _).length_le
            rw [hdq] at h1
            simp only [List.length_cons] at h1
            simp only [List.length_cons] at hm
            omega
          rw [ih ds t hds ht]

theorem splitTermsSpec_rstrip (l : Str) :
    splitTermsSpec isTermDelim (pyRStrip l) = splitTermsSpec isTermDelim l := by
  have hsplit : l = pyRStrip l ++ (l.reverse.takeWhile pyIsSpace).reverse := by
    unfold pyRStrip
    rw [← List.reverse_append, List.takeWhile_append_dropWhile, List.reverse_reverse]
  have ht : ∀ c ∈ (l.reverse.takeWhile pyIsSpace).reverse, isTermDelim c = true := by
    intro c hc
    rw [List.mem_reverse] at hc
    exact isTermDelim_of_space (List.mem_takeWhile_imp hc)
  conv_rhs => rw [hsplit]
  exact (spec_append_delims (pyRStrip l).length (pyRStrip l) _ le_rfl ht).symm

/-- C5: `split_terms_and` splits on whitespace, comma, slash and
full-width slash, collapsing consecutive delimiters and dropping empty
tokens: it equals the maximal delimiter-free runs of the input, in
order; in particular on `"a, b/c  d"` it yields `["a","b","c","d"]` and
on `""` it yields `[]`. -/
theorem C5_split_terms_and :
    (∀ s : Str, split_terms_and s = splitTermsSpec isTermDelim s) ∧
    split_terms_and "a, b/c  d".toList =
      ["a".toList, "b".toList, "c".toList, "d".toList] ∧
    split_terms_and [] = [] := by
  refine ⟨?_, by decide, by decide⟩
  intro s
  by_cases hs : s = []
  · subst hs
    rw [show split_terms_and ([] : Str) = [] from rfl,
        show splitTermsSpec isTermDelim ([] : Str) = [] from by
          simp [splitTermsSpec]]
  · simp only [split_terms_and, if_neg hs]
    rw [map_pyStrip_chunks]
    rw [reSplit_filter_spec isTermDelim (pyStrip s).length (pyStrip s) le_rfl]
    show splitTermsSpec isTermDelim (pyRStrip (pyLStrip s)) = _
    rw [splitTermsSpec_rstrip]
    exact splitTermsSpec_lstrip s

end Inbox
